import Mathlib

/-!
Shallow embedding of the CyclingGPXViewer route persistence engine
(src/gpx-viewer/website/services/gpx_service.py and route_service.py).

Python strings are modelled as lists of Unicode code points (`Str`), the
GPX folder and the sidecar metadata JSON document as association lists
keyed by filename, and a GPX document as its structural content (the
gpxpy XML round trip is out of scope per the spec and is assumed exact).
Floating point numbers are modelled by rationals for coordinates and by
real numbers for the haversine distance computation.
-/

namespace GPXViewer

/-! Strings as lists of code points. -/

abbrev Str := List Nat

/-- Convert a Lean string literal to the code point list model. -/
def S (s : String) : Str := s.data.map Char.toNat

/-- Decimal rendering of a natural number, as Python str(n). -/
def natStr (n : Nat) : Str := S (toString n)

/-- Models the Python expression `a or b` where `a` is an optional string:
Python treats both None and the empty string as falsy. -/
def pyOr (a : Option Str) (b : Str) : Str :=
  match a with
  | none => b
  | some s => if s = [] then b else s

/-- Models Python str.startswith: the first argument is the pattern. -/
def strHasPre : Str → Str → Bool
  | [], _ => true
  | _ :: _, [] => false
  | a :: as, b :: bs => a == b && strHasPre as bs

/-- Models Python str.endswith: the first argument is the pattern. -/
def strHasSuf (p s : Str) : Bool := strHasPre p.reverse s.reverse

/-- Three way comparison of naturals. -/
def cmpNat (a b : Nat) : Ordering :=
  if a < b then Ordering.lt else if b < a then Ordering.gt else Ordering.eq

/-- Lexicographic comparison of code point strings, as Python str comparison. -/
def cmpStr : Str → Str → Ordering
  | [], [] => Ordering.eq
  | [], _ :: _ => Ordering.lt
  | _ :: _, [] => Ordering.gt
  | a :: as, b :: bs =>
    match cmpNat a b with
    | Ordering.eq => cmpStr as bs
    | o => o

def strLe (a b : Str) : Bool :=
  match cmpStr a b with
  | Ordering.gt => false
  | _ => true

def strGe (a b : Str) : Bool :=
  match cmpStr a b with
  | Ordering.lt => false
  | _ => true

/-- Stable insertion into a sorted list (used to model Python sorted). -/
def insertSorted {α : Type} (le : α → α → Bool) (x : α) : List α → List α
  | [] => [x]
  | y :: ys => if le x y then x :: y :: ys else y :: insertSorted le x ys

/-- Stable list sort (models Python sorted, which is a stable sort). -/
def sortByLe {α : Type} (le : α → α → Bool) : List α → List α
  | [] => []
  | x :: xs => insertSorted le x (sortByLe le xs)

/-! Association lists model Python dicts keyed by filename. -/

/-- First-match lookup. -/
def alookup {α : Type} (k : Str) : List (Str × α) → Option α
  | [] => none
  | (k1, v) :: rest => if k1 = k then some v else alookup k rest

/-- Update in place when the key is present, otherwise append. -/
def aset {α : Type} (k : Str) (v : α) : List (Str × α) → List (Str × α)
  | [] => [(k, v)]
  | (k1, v1) :: rest => if k1 = k then (k, v) :: rest else (k1, v1) :: aset k v rest

/-- Remove a key (models Python del on a dict). -/
def aremove {α : Type} (k : Str) (l : List (Str × α)) : List (Str × α) :=
  l.filter (fun p => ! decide (p.1 = k))

/-- Stem of a filename per os.path.splitext: cut at the last dot, except
when every character before that dot is itself a dot. -/
def lastDotIdx (f : Str) : Option Nat :=
  match f.reverse.findIdx? (fun c => c == 46) with
  | none => none
  | some r => some (f.length - 1 - r)

def splitextStem (f : Str) : Str :=
  match lastDotIdx f with
  | none => f
  | some i => if (f.take i).all (fun c => c == 46) then f else f.take i

/-! The GPX document model.  A stored file is either a parseable document
or an unreadable blob (modelled as `none` in the folder map). -/

/-- An explicit waypoint element of a GPX document; gpxpy reports a missing
name element as None. -/
structure GpxWaypoint where
  lat : ℚ
  lon : ℚ
  name : Option Str
  deriving DecidableEq

/-- Structural content of a GPX file: metadata plus tracks (each a list of
segments, each a list of points) plus explicit waypoint elements. -/
structure GpxDoc where
  name : Option Str
  description : Option Str
  tracks : List (List (List (ℚ × ℚ)))
  waypoints : List GpxWaypoint
  deriving DecidableEq

/-- A waypoint of the decoded in-memory form: the Python list [lat, lon, label]. -/
structure Wpt where
  lat : ℚ
  lon : ℚ
  label : Str
  deriving DecidableEq

/-- Decoded form returned by GPXService.parse_gpx_file. -/
structure ParsedGpx where
  tracks : List (List (ℚ × ℚ))
  waypoints : List Wpt
  name : Str
  description : Str
  deriving DecidableEq

/-- Track extraction: per track, per segment, keep the non-empty point lists. -/
def extractTracks (doc : GpxDoc) : List (List (ℚ × ℚ)) :=
  (doc.tracks.map (fun segs => segs.filter (fun seg => ! seg.isEmpty))).flatten

/-- Explicit waypoint extraction with the running default label
`Waypoint {len(waypoints)+1}`. -/
def extractWps : Nat → List GpxWaypoint → List Wpt
  | _, [] => []
  | k, w :: ws =>
    ⟨w.lat, w.lon, pyOr w.name (S (r"Waypoint ") ++ natStr (k + 1))⟩ :: extractWps (k + 1) ws

/-- Fallback waypoints synthesized from one extracted track: the code guards
with `if track and len(track) >= 2`. -/
def trackEndpoints (t : List (ℚ × ℚ)) : List Wpt :=
  if 2 ≤ t.length then
    [⟨(t.headD (0, 0)).1, (t.headD (0, 0)).2, S (r"Start")⟩,
     ⟨(t.getLastD (0, 0)).1, (t.getLastD (0, 0)).2, S (r"End")⟩]
  else []

/-- GPXService.parse_gpx_file on a readable document; `stem` is the filename
stem used as the default route name. -/
def parse_gpx_file (stem : Str) (doc : GpxDoc) : ParsedGpx :=
  let tracks := extractTracks doc
  let wps := extractWps 0 doc.waypoints
  let wps := if wps.isEmpty && ! tracks.isEmpty then (tracks.map trackEndpoints).flatten else wps
  { tracks := tracks
    waypoints := wps
    name := pyOr doc.name stem
    description := pyOr doc.description [] }

/-- An input waypoint handed to create/update: a Python tuple of length 2
(no label, `none`) or 3 (labelled). -/
structure InPoint where
  lat : ℚ
  lon : ℚ
  label : Option Str
  deriving DecidableEq

/-- Waypoint elements emitted by create_gpx_from_waypoints: only the first
point, the last point, and every point when the total count is at most 5. -/
def encodeWpsAux (n : Nat) : Nat → List InPoint → List GpxWaypoint
  | _, [] => []
  | i, p :: rest =>
    (if i = 0 ∨ i = n - 1 ∨ n ≤ 5 then
      [⟨p.lat, p.lon, some (p.label.getD (S (r"Point ") ++ natStr (i + 1)))⟩]
     else []) ++ encodeWpsAux n (i + 1) rest

/-- GPXService.create_gpx_from_waypoints; `nowG` is the strftime timestamp
used in the generated default description. -/
def create_gpx_from_waypoints (waypoints : List InPoint) (name description nowG : Str) : GpxDoc :=
  { name := some name
    description := some (if description = [] then
      S (r"Route created with GPX Editor - ") ++ nowG else description)
    tracks := [[waypoints.map (fun p => (p.lat, p.lon))]]
    waypoints := encodeWpsAux waypoints.length 0 waypoints }

/-! Geometry: haversine distance over the reals, bounds over the rationals. -/

structure Bounds where
  north : ℚ
  south : ℚ
  east : ℚ
  west : ℚ
  deriving DecidableEq

noncomputable section

/-- Degrees to radians, as math.radians. -/
def radians (x : ℚ) : ℝ := (x : ℝ) * Real.pi / 180

/-- Two-argument arctangent, as math.atan2(y, x). -/
def atan2 (y x : ℝ) : ℝ :=
  if 0 < x then Real.arctan (y / x)
  else if x < 0 then
    (if 0 ≤ y then Real.arctan (y / x) + Real.pi else Real.arctan (y / x) - Real.pi)
  else if 0 < y then Real.pi / 2
  else if y < 0 then -(Real.pi / 2)
  else 0

/-- GPXService._haversine_distance in meters. -/
def haversine_distance (lat1 lon1 lat2 lon2 : ℚ) : ℝ :=
  let R : ℝ := 6371000
  let lat1r := radians lat1
  let lat2r := radians lat2
  let dlat := radians (lat2 - lat1)
  let dlon := radians (lon2 - lon1)
  let a := Real.sin (dlat / 2) ^ 2 +
    Real.cos lat1r * Real.cos lat2r * Real.sin (dlon / 2) ^ 2
  let c := 2 * atan2 (Real.sqrt a) (Real.sqrt (1 - a))
  R * c

/-- Sum of haversine distances between consecutive waypoints. -/
def totalDist : List Wpt → ℝ
  | a :: b :: rest => haversine_distance a.lat a.lon b.lat b.lon + totalDist (b :: rest)
  | _ => 0

/-- Round half to even to an integer, as Python round on an exact value. -/
def rne (x : ℝ) : ℤ :=
  if x - ⌊x⌋ < 1 / 2 then ⌊x⌋
  else if (1 : ℝ) / 2 < x - ⌊x⌋ then ⌊x⌋ + 1
  else if Even ⌊x⌋ then ⌊x⌋ else ⌊x⌋ + 1

/-- Round to two decimal places, as Python round(x, 2). -/
def round2 (x : ℝ) : ℝ := (rne (x * 100) : ℝ) / 100

end

def listMin : List ℚ → ℚ
  | [] => 0
  | x :: xs => xs.foldl min x

def listMax : List ℚ → ℚ
  | [] => 0
  | x :: xs => xs.foldl max x

structure Stats where
  distance_km : ℝ
  waypoint_count : Nat
  bounds : Option Bounds

/-- GPXService.calculate_route_stats. -/
noncomputable def calculate_route_stats (ws : List Wpt) : Stats :=
  if ws.length < 2 then
    { distance_km := 0, waypoint_count := ws.length, bounds := none }
  else
    { distance_km := round2 (totalDist ws / 1000)
      waypoint_count := ws.length
      bounds := some
        { north := listMax (ws.map (fun w => w.lat))
          south := listMin (ws.map (fun w => w.lat))
          east := listMax (ws.map (fun w => w.lon))
          west := listMin (ws.map (fun w => w.lon)) } }

/-- GPXService.get_route_bounds_overlap. -/
def get_route_bounds_overlap (route_bounds map_bounds : Option Bounds)
    (minOverlap : ℚ) : Bool :=
  match route_bounds, map_bounds with
  | some rb, some mb =>
    let iN := min rb.north mb.north
    let iS := max rb.south mb.south
    let iE := min rb.east mb.east
    let iW := max rb.west mb.west
    if iN ≤ iS ∨ iE ≤ iW then false
    else
      let routeArea := (rb.north - rb.south) * (rb.east - rb.west)
      let interArea := (iN - iS) * (iE - iW)
      if routeArea ≤ 0 then false
      else decide (minOverlap ≤ interArea / routeArea)
  | _, _ => true

/-! RouteService: the storage state is the GPX folder (filename to stored
document, `none` for a file whose text fails to parse) plus the sidecar
metadata document (filename to record; every key of a record is optional,
as Python dict entries are). -/

structure MetaRec where
  name : Option Str
  description : Option Str
  route_type : Option Str
  is_favorite : Option Bool
  created_at : Option Str
  modified_at : Option Str
  created_by : Option Str
  is_version : Option Bool
  original_file : Option Str
  deriving DecidableEq

def emptyRec : MetaRec :=
  { name := none, description := none, route_type := none, is_favorite := none
    created_at := none, modified_at := none, created_by := none
    is_version := none, original_file := none }

structure St where
  folder : List (Str × Option GpxDoc)
  metadata : List (Str × MetaRec)
  deriving DecidableEq

/-- The filename test of RouteService._get_version_files: starts with
`{stem}_v_` and ends with `.gpx`. -/
def matchesVersionPattern (filename g : Str) : Bool :=
  strHasPre (splitextStem filename ++ S (r"_v_")) g && strHasSuf (S (r".gpx")) g

/-- RouteService._get_version_files: files of the folder that start with
`{stem}_v_` and end with `.gpx`. -/
def get_version_files (st : St) (filename : Str) : List Str :=
  (st.folder.map Prod.fst).filter (matchesVersionPattern filename)

structure VersionInfo where
  filename : Str
  name : Str
  created_at : Option Str
  description : Str
  deriving DecidableEq

/-- RouteService.get_route_versions: version files sorted newest first by
filename, each merged with its metadata record. -/
def get_route_versions (st : St) (filename : Str) : List VersionInfo :=
  (sortByLe strGe (get_version_files st filename)).filterMap (fun vf =>
    if (alookup vf st.folder).isSome then
      let meta := (alookup vf st.metadata).getD emptyRec
      some { filename := vf
             name := meta.name.getD vf
             created_at := meta.created_at
             description := meta.description.getD [] }
    else none)

/-- The route view assembled by RouteService.get_routes for one file. -/
structure RouteItem where
  filename : Str
  name : Str
  description : Str
  is_favorite : Bool
  created_at : Option Str
  modified_at : Option Str
  route_type : Str
  tracks : List (List (ℚ × ℚ))
  waypoints : List Wpt
  stats : Stats
  version_count : Nat

/-- One iteration of the get_routes loop: parse the file, merge metadata,
compute stats, and drop the route when the bounds filter rejects it. -/
noncomputable def buildItem (st : St) (bounds : Option Bounds) (filename : Str) :
    Option RouteItem :=
  match alookup filename st.folder with
  | some (some doc) =>
    let gd := parse_gpx_file (splitextStem filename) doc
    let meta := (alookup filename st.metadata).getD emptyRec
    let stats := calculate_route_stats gd.waypoints
    let keep : Bool :=
      match bounds, stats.bounds with
      | some b, some sb => get_route_bounds_overlap (some sb) (some b) (3 / 5)
      | _, _ => true
    if keep then
      some { filename := filename
             name := meta.name.getD (splitextStem filename)
             description := meta.description.getD []
             is_favorite := meta.is_favorite.getD false
             created_at := meta.created_at
             modified_at := meta.modified_at
             route_type := meta.route_type.getD (S (r"cycling"))
             tracks := gd.tracks
             waypoints := gd.waypoints
             stats := stats
             version_count := (get_route_versions st filename).length }
    else none
  | _ => none

/-- The unsorted route list of get_routes: every `.gpx` file not starting
with a dot, in sorted filename order, that parses and passes the filter. -/
noncomputable def routeItems (st : St) (bounds : Option Bounds) : List RouteItem :=
  let gpx_files := (st.folder.map Prod.fst).filter
    (fun f => strHasSuf (S (r".gpx")) f && ! strHasPre (S (r".")) f)
  (sortByLe strLe gpx_files).filterMap (buildItem st bounds)

def cmpBool (a b : Bool) : Ordering :=
  if a = b then Ordering.eq else if b then Ordering.lt else Ordering.gt

/-- Comparison of two sort keys (not is_favorite, modified_at, name) as
Python compares the key tuples: comparing a None modified_at against a
string one raises, which the model reports as `none`. -/
def routeKeyCmp (r s : RouteItem) : Option Ordering :=
  match cmpBool (! r.is_favorite) (! s.is_favorite) with
  | Ordering.eq =>
    match r.modified_at, s.modified_at with
    | none, none => some (cmpStr r.name s.name)
    | some a, some b =>
      match cmpStr a b with
      | Ordering.eq => some (cmpStr r.name s.name)
      | o => some o
    | _, _ => none
  | o => some o

/-- Insertion step of a stable sort whose comparator can fail. -/
def insertCmp {α : Type} (cmp : α → α → Option Ordering) (x : α) :
    List α → Option (List α)
  | [] => some [x]
  | y :: ys =>
    match cmp x y with
    | none => none
    | some Ordering.gt => (insertCmp cmp x ys).map (fun zs => y :: zs)
    | some _ => some (x :: y :: ys)

/-- Stable comparison sort that fails as soon as a comparison fails, as
Python list.sort raising TypeError. -/
def sortCmp {α : Type} (cmp : α → α → Option Ordering) : List α → Option (List α)
  | [] => some []
  | x :: xs => (sortCmp cmp xs).bind (insertCmp cmp x)

/-- RouteService.get_routes; `none` models the sort raising TypeError. -/
noncomputable def get_routes (st : St) (bounds : Option Bounds) :
    Option (List RouteItem) :=
  sortCmp routeKeyCmp (routeItems st bounds)

/-- The route view of RouteService.get_route, with the version history. -/
structure RouteFull where
  filename : Str
  name : Str
  description : Str
  is_favorite : Bool
  created_at : Option Str
  modified_at : Option Str
  route_type : Str
  tracks : List (List (ℚ × ℚ))
  waypoints : List Wpt
  stats : Stats
  versions : List VersionInfo

/-- RouteService.get_route. -/
noncomputable def get_route (st : St) (filename : Str) : Option RouteFull :=
  match alookup filename st.folder with
  | some (some doc) =>
    let gd := parse_gpx_file (splitextStem filename) doc
    let meta := (alookup filename st.metadata).getD emptyRec
    some { filename := filename
           name := meta.name.getD (splitextStem filename)
           description := meta.description.getD []
           is_favorite := meta.is_favorite.getD false
           created_at := meta.created_at
           modified_at := meta.modified_at
           route_type := meta.route_type.getD (S (r"cycling"))
           tracks := gd.tracks
           waypoints := gd.waypoints
           stats := calculate_route_stats gd.waypoints
           versions := get_route_versions st filename }
  | _ => none

/-! Character predicates for the filename slug of create_route. -/

def isAlnumCh (n : Nat) : Bool :=
  (48 ≤ n && n ≤ 57) || (65 ≤ n && n ≤ 90) || (97 ≤ n && n ≤ 122)

def keepCh (n : Nat) : Bool := isAlnumCh n || n == 32 || n == 45 || n == 95

def lowerCh (n : Nat) : Nat := if 65 ≤ n && n ≤ 90 then n + 32 else n

def replSpace (n : Nat) : Nat := if n == 32 then 95 else n

def isSpaceCh (n : Nat) : Bool :=
  n == 32 || n == 9 || n == 10 || n == 13 || n == 11 || n == 12

/-- Models Python str.strip() with no argument. -/
def pyStrip (s : Str) : Str :=
  ((s.dropWhile isSpaceCh).reverse.dropWhile isSpaceCh).reverse

/-- The safe_name computation of create_route: filter the stripped name,
replace spaces, lowercase, and keep at most 30 characters. -/
def safeName (name : Str) : Str :=
  ((((pyStrip name).filter keepCh).map replSpace).map lowerCh).take 30

/-- Result of a successful create_route: the generated filename, the new
storage state, and the re-read route. -/
structure CreateOut where
  filename : Str
  state : St
  route : Option RouteFull

/-- RouteService.create_route; `hex` is the 8 character uuid4 suffix, `nowG`
the strftime timestamp used in the GPX description, `nowIso` the isoformat
timestamp stored in the metadata record.  A ValueError is `Except.error`;
both validations precede every write. -/
noncomputable def create_route (st : St) (name : Str) (waypoints : List InPoint)
    (route_type description hex nowG nowIso : Str) : Except Str CreateOut :=
  if waypoints.length < 2 then Except.error (S (r"Route must have at least 2 waypoints"))
  else if pyStrip name = [] then Except.error (S (r"Route name cannot be empty"))
  else
    let filename := safeName name ++ S (r"_") ++ hex ++ S (r".gpx")
    let doc := create_gpx_from_waypoints waypoints name description nowG
    let st1 : St := { st with folder := aset filename (some doc) st.folder }
    let recNew : MetaRec :=
      { name := some name, description := some description
        route_type := some route_type, is_favorite := some false
        created_at := some nowIso, modified_at := some nowIso
        created_by := some (S (r"GPX Route Editor"))
        is_version := none, original_file := none }
    let st2 : St := { st1 with metadata := aset filename recNew st1.metadata }
    Except.ok { filename := filename, state := st2, route := get_route st2 filename }

/-- RouteService.update_route. -/
noncomputable def update_route (st : St) (filename : Str) (waypoints : List InPoint)
    (nameOpt descOpt : Option Str) (nowG nowIso : Str) :
    Except Str (Option RouteFull × St) :=
  if (alookup filename st.folder).isNone then Except.ok (none, st)
  else if waypoints.length < 2 then
    Except.error (S (r"Route must have at least 2 waypoints"))
  else
    let m0 := (alookup filename st.metadata).getD emptyRec
    let m1 := match nameOpt with | some n => { m0 with name := some n } | none => m0
    let m2 := match descOpt with | some d => { m1 with description := some d } | none => m1
    let m3 := { m2 with modified_at := some nowIso }
    let route_name := m3.name.getD (splitextStem filename)
    let route_desc := m3.description.getD []
    let doc := create_gpx_from_waypoints waypoints route_name route_desc nowG
    let st1 : St := { st with folder := aset filename (some doc) st.folder }
    let st2 : St := { st1 with metadata := aset filename m3 st1.metadata }
    Except.ok (get_route st2 filename, st2)

/-- RouteService.delete_route: remove the file, remove its metadata entry
when present, then remove every file matching the version pattern.  The
version metadata entries are not touched. -/
def delete_route (st : St) (filename : Str) : Bool × St :=
  if (alookup filename st.folder).isNone then (false, st)
  else
    let st1 : St := { st with folder := aremove filename st.folder }
    let st2 : St :=
      if (alookup filename st1.metadata).isSome then
        { st1 with metadata := aremove filename st1.metadata }
      else st1
    let vfiles := get_version_files st2 filename
    (true, vfiles.foldl (fun s vf => { s with folder := aremove vf s.folder }) st2)

/-- RouteService.toggle_favorite. -/
def toggle_favorite (st : St) (filename : Str) (nowIso : Str) :
    Option (Str × Bool) × St :=
  if (alookup filename st.folder).isNone then (none, st)
  else
    let m0 := match alookup filename st.metadata with
      | some r => r
      | none => { emptyRec with name := some (splitextStem filename) }
    let cur := m0.is_favorite.getD false
    let m1 := { m0 with is_favorite := some (! cur), modified_at := some nowIso }
    (some (filename, ! cur), { st with metadata := aset filename m1 st.metadata })

/-- RouteService.create_version_backup; `ts` is the strftime timestamp of
the snapshot name, the route_data dict is passed as its relevant fields. -/
def create_version_backup (st : St) (filename : Str) (routeName : Str)
    (routeWps : List InPoint) (routeDesc : Option Str) (routeType : Option Str)
    (ts nowG nowIso : Str) : Str × St :=
  let version_filename := splitextStem filename ++ S (r"_v_") ++ ts ++ S (r".gpx")
  let vname := routeName ++ S (r" (Version ") ++ ts ++ S (r")")
  let doc := create_gpx_from_waypoints routeWps vname (routeDesc.getD []) nowG
  let st1 : St := { st with folder := aset version_filename (some doc) st.folder }
  let recV : MetaRec :=
    { name := some vname
      description := some (S (r"Backup version created on ") ++ ts)
      route_type := some (routeType.getD (S (r"cycling")))
      is_favorite := some false
      is_version := some true
      original_file := some filename
      created_at := some nowIso
      modified_at := none, created_by := none }
  (version_filename, { st1 with metadata := aset version_filename recV st1.metadata })

/-! View helpers: the observable effects the claims speak about. -/

/-- The effective favorite flag of a file: the stored flag with the Python
dict default False, exactly as get_routes and toggle_favorite read it. -/
def effFav (st : St) (f : Str) : Bool :=
  (((alookup f st.metadata).getD emptyRec).is_favorite).getD false

/-- The stored modified_at value of a file (None when absent). -/
def modAt (st : St) (f : Str) : Option Str :=
  ((alookup f st.metadata).getD emptyRec).modified_at

/-- Filename of a successful create_route call. -/
def createdFilename (e : Except Str CreateOut) : Option Str :=
  match e with
  | Except.ok o => some o.filename
  | Except.error _ => none

/-- Route view returned by a successful create_route call. -/
def createdRoute (e : Except Str CreateOut) : Option RouteFull :=
  match e with
  | Except.ok o => o.route
  | Except.error _ => none

/-- Route view returned by a successful update_route call. -/
def updatedRoute (e : Except Str (Option RouteFull × St)) : Option RouteFull :=
  match e with
  | Except.ok p => p.1
  | Except.error _ => none

/-- True when the call reported a validation failure (raised ValueError). -/
def isValErr {α : Type} (e : Except Str α) : Bool :=
  match e with
  | Except.error _ => true
  | Except.ok _ => false

/-- Modelled from the spec: the slug of claim C8, by the claim words only —
lowercases the name, keeps only alphanumerics, spaces, hyphens and
underscores, and replaces spaces with underscores (no trimming step). -/
def slugSpec (s : Str) : Str :=
  (((s.map lowerCh).filter keepCh).map replSpace)

/-! Concrete storage states used by counterexamples and witnesses. -/

/-- Default input point (never observed through a total function). -/
def dIn : InPoint := { lat := 0, lon := 0, label := none }

/-- A small readable GPX document for the file `r.gpx`. -/
def docR : GpxDoc :=
  create_gpx_from_waypoints [⟨0, 0, none⟩, ⟨1, 1, none⟩] (S (r"r")) [] (S (r"g"))

/-- A state holding the single live route `r.gpx` with a metadata record. -/
def stR : St :=
  { folder := [(S (r"r.gpx"), some docR)]
    metadata := [(S (r"r.gpx"), { emptyRec with name := some (S (r"r")) })] }

/-- The state after snapshotting `r.gpx`: the folder holds the live route
and the version file, and the metadata holds both records. -/
def stSnap : St :=
  (create_version_backup stR (S (r"r.gpx")) (S (r"r")) [⟨0, 0, none⟩, ⟨1, 1, none⟩]
    none none (S (r"20240101_000000")) (S (r"g")) (S (r"i"))).2

/-- A state with two decodable routes of equal favorite status where only
one of them has a modified_at value in its metadata record. -/
def stMixed : St :=
  { folder := [(S (r"a.gpx"), some docR), (S (r"b.gpx"), some docR)]
    metadata := [(S (r"a.gpx"),
      { emptyRec with modified_at := some (S (r"2024-01-01T00:00:00")) })] }

/-- Empty storage state. -/
def stEmpty : St := { folder := [], metadata := [] }

/-! Helper lemmas about association lists. -/

theorem alookup_aset_self {α : Type} (k : Str) (v : α) (l : List (Str × α)) :
    alookup k (aset k v l) = some v := by
  induction l with
  | nil => simp [aset, alookup]
  | cons p rest ih =>
    obtain ⟨k1, v1⟩ := p
    by_cases h : k1 = k
    · simp [aset, h, alookup]
    · simp [aset, h, alookup, ih]

theorem alookup_aset_ne {α : Type} (k k1 : Str) (v : α) (l : List (Str × α))
    (h : k1 ≠ k) : alookup k1 (aset k v l) = alookup k1 l := by
  have h2 : ¬ k = k1 := fun hh => h hh.symm
  induction l with
  | nil => simp [aset, alookup, h2]
  | cons p rest ih =>
    obtain ⟨k2, v2⟩ := p
    by_cases h3 : k2 = k
    · subst h3
      simp [aset, alookup, h2]
    · simp [aset, h3, alookup, ih]

theorem alookup_aremove_self {α : Type} (k : Str) (l : List (Str × α)) :
    alookup k (aremove k l) = none := by
  induction l with
  | nil => simp [aremove, alookup]
  | cons p rest ih =>
    obtain ⟨k1, v1⟩ := p
    by_cases h : k1 = k
    · simpa [aremove, h] using ih
    · simpa [aremove, alookup, h] using ih

theorem alookup_aremove_ne {α : Type} (k k1 : Str) (l : List (Str × α))
    (h : k1 ≠ k) : alookup k1 (aremove k l) = alookup k1 l := by
  have hks : ¬ k = k1 := fun hh => h hh.symm
  induction l with
  | nil => rfl
  | cons p rest ih =>
    obtain ⟨k2, v2⟩ := p
    rw [aremove, List.filter_cons]
    by_cases h2 : k2 = k
    · subst h2
      have hcond : (!decide (k2 = k2)) = false := by simp
      rw [hcond]
      simp only [Bool.false_eq_true, if_false]
      calc alookup k1 (rest.filter (fun p => !decide (p.1 = k2))) = alookup k1 rest := ih
        _ = alookup k1 ((k2, v2) :: rest) := by rw [alookup, if_neg hks]
    · have hcond : (!decide (k2 = k)) = true := by simp [h2]
      rw [hcond]
      simp only [if_true]
      by_cases h3 : k2 = k1
      · simp [alookup, h3]
      · simp only [alookup, h3, if_false]
        exact ih

theorem alookup_eq_none_iff {α : Type} (k : Str) (l : List (Str × α)) :
    alookup k l = none ↔ k ∉ l.map Prod.fst := by
  induction l with
  | nil => simp [alookup]
  | cons p rest ih =>
    obtain ⟨k1, v1⟩ := p
    by_cases h : k1 = k
    · simp [alookup, h]
    · have h2 : ¬ k = k1 := fun hh => h hh.symm
      simp [alookup, h, ih, h2]

theorem mem_keys_aremove {α : Type} (k g : Str) (l : List (Str × α)) :
    g ∈ (aremove k l).map Prod.fst ↔ g ∈ l.map Prod.fst ∧ g ≠ k := by
  simp only [aremove, List.mem_map, List.mem_filter]
  constructor
  · rintro ⟨p, ⟨hp, hk⟩, rfl⟩
    simp only [Bool.not_eq_eq_eq_not, Bool.not_true, decide_eq_false_iff_not] at hk
    exact ⟨⟨p, hp, rfl⟩, hk⟩
  · rintro ⟨⟨p, hp, rfl⟩, hk⟩
    exact ⟨p, ⟨hp, by simpa using hk⟩, rfl⟩

theorem alookup_foldl_aremove {α : Type} (vs : List Str) (fl : List (Str × α)) (g : Str) :
    alookup g (vs.foldl (fun f v => aremove v f) fl) =
      if g ∈ vs then none else alookup g fl := by
  induction vs generalizing fl with
  | nil => simp
  | cons v vs ih =>
    simp only [List.foldl_cons, ih]
    by_cases hv : g = v
    · subst hv
      simp [alookup_aremove_self]
    · simp [hv, alookup_aremove_ne _ _ _ hv]

/-! Helper lemmas about the sorting functions. -/

theorem mem_insertSorted {α : Type} (le : α → α → Bool) (x a : α) (l : List α) :
    a ∈ insertSorted le x l ↔ a = x ∨ a ∈ l := by
  induction l with
  | nil => simp [insertSorted]
  | cons y ys ih =>
    by_cases h : le x y = true
    · simp [insertSorted, h]
    · rw [insertSorted, if_neg h]
      simp only [List.mem_cons, ih]
      tauto

theorem mem_sortByLe {α : Type} (le : α → α → Bool) (a : α) (l : List α) :
    a ∈ sortByLe le l ↔ a ∈ l := by
  induction l with
  | nil => simp [sortByLe]
  | cons x xs ih => simp [sortByLe, mem_insertSorted, ih]

theorem insertCmp_perm {α : Type} (cmp : α → α → Option Ordering) (x : α) :
    ∀ (l l2 : List α), insertCmp cmp x l = some l2 → l2.Perm (x :: l) := by
  intro l
  induction l with
  | nil =>
    intro l2 h
    simp only [insertCmp, Option.some.injEq] at h
    rw [← h]
  | cons y ys ih =>
    intro l2 h
    simp only [insertCmp] at h
    rcases hc : cmp x y with _ | o
    · rw [hc] at h
      exact absurd h (by simp)
    · rw [hc] at h
      rcases o with _ | _ | _
      · simp only [Option.some.injEq] at h
        rw [← h]
      · simp only [Option.some.injEq] at h
        rw [← h]
      · rcases hzs : insertCmp cmp x ys with _ | zs
        · rw [hzs] at h
          exact absurd h (by simp)
        · rw [hzs] at h
          have h2 : y :: zs = l2 := by simpa using h
          rw [← h2]
          exact ((ih zs hzs).cons y).trans (List.Perm.swap x y ys)

theorem sortCmp_perm {α : Type} (cmp : α → α → Option Ordering) :
    ∀ (l l2 : List α), sortCmp cmp l = some l2 → l2.Perm l := by
  intro l
  induction l with
  | nil =>
    intro l2 h
    simp only [sortCmp, Option.some.injEq] at h
    rw [← h]
  | cons x xs ih =>
    intro l2 h
    rw [sortCmp] at h
    rcases hys : sortCmp cmp xs with _ | ys
    · rw [hys] at h
      exact absurd h (by simp)
    · rw [hys] at h
      simp only [Option.some_bind] at h
      exact (insertCmp_perm cmp x ys l2 h).trans ((ih ys hys).cons x)

/-! Helper lemmas about the GPX codec. -/

theorem parse_create_tracks (ws : List InPoint) (name desc nowG stem : Str)
    (h : ws ≠ []) :
    (parse_gpx_file stem (create_gpx_from_waypoints ws name desc nowG)).tracks =
      [ws.map (fun p => (p.lat, p.lon))] := by
  have hne : (ws.map (fun p => (p.lat, p.lon))).isEmpty = false := by
    cases ws with
    | nil => exact absurd rfl h
    | cons a l => rfl
  unfold parse_gpx_file create_gpx_from_waypoints extractTracks
  simp [hne]

theorem extractWps_coords (k : Nat) (l : List GpxWaypoint) :
    (extractWps k l).map (fun w => (w.lat, w.lon)) =
      l.map (fun w => (w.lat, w.lon)) := by
  induction l generalizing k with
  | nil => rfl
  | cons w rest ih => simp [extractWps, ih]

theorem extractWps_ne_nil (k : Nat) (w : GpxWaypoint) (l : List GpxWaypoint) :
    extractWps k (w :: l) ≠ [] := by
  simp [extractWps]

theorem encodeWpsAux_coords_small (n : Nat) (hn : n ≤ 5) :
    ∀ (i : Nat) (l : List InPoint),
      (encodeWpsAux n i l).map (fun w => (w.lat, w.lon)) =
        l.map (fun p => (p.lat, p.lon)) := by
  intro i l
  induction l generalizing i with
  | nil => rfl
  | cons p rest ih =>
    rw [encodeWpsAux, if_pos (Or.inr (Or.inr hn))]
    simp [ih]

theorem encodeWpsAux_coords_tail (n : Nat) (hn : 5 < n) :
    ∀ (l : List InPoint) (i : Nat), i ≠ 0 → i + l.length = n → l ≠ [] →
      (encodeWpsAux n i l).map (fun w => (w.lat, w.lon)) =
        [((l.getLastD dIn).lat, (l.getLastD dIn).lon)] := by
  intro l
  induction l with
  | nil => intro i _ _ hnil; exact absurd rfl hnil
  | cons p rest ih =>
    intro i hi hlen _
    cases rest with
    | nil =>
      have hi2 : i = n - 1 := by simp at hlen; omega
      rw [encodeWpsAux, if_pos (Or.inr (Or.inl hi2))]
      rfl
    | cons q t =>
      have hcond : ¬ (i = 0 ∨ i = n - 1 ∨ n ≤ 5) := by
        simp only [List.length_cons] at hlen
        push_neg
        refine ⟨hi, by omega, by omega⟩
      rw [encodeWpsAux, if_neg hcond]
      simp only [List.nil_append]
      have hres := ih (i + 1) (by omega) (by simp at hlen ⊢; omega) (by simp)
      rw [hres]
      simp [List.getLastD_cons]

theorem encodeWpsAux_coords_large (n : Nat) (hn : 5 < n) (l : List InPoint)
    (hl : l.length = n) :
    (encodeWpsAux n 0 l).map (fun w => (w.lat, w.lon)) =
      [((l.headD dIn).lat, (l.headD dIn).lon),
       ((l.getLastD dIn).lat, (l.getLastD dIn).lon)] := by
  cases l with
  | nil => simp at hl; omega
  | cons p rest =>
    rw [encodeWpsAux, if_pos (Or.inl rfl)]
    have hrest : rest ≠ [] := by
      cases rest with
      | nil => simp at hl; omega
      | cons a b => simp
    have hres := encodeWpsAux_coords_tail n hn rest 1 (by omega)
      (by simp at hl ⊢; omega) hrest
    simp only [List.cons_append, List.nil_append, List.map_cons, hres]
    simp [List.getLastD_cons, List.getLastD_eq_getLast?]
    cases rest with
    | nil => exact absurd rfl hrest
    | cons a b => simp [List.getLast?_cons_cons]

theorem encodeWpsAux_ne_nil (n : Nat) (p : InPoint) (l : List InPoint) :
    encodeWpsAux n 0 (p :: l) ≠ [] := by
  rw [encodeWpsAux, if_pos (Or.inl rfl)]
  simp

theorem parse_create_waypoints (ws : List InPoint) (name desc nowG stem : Str)
    (h : ws ≠ []) :
    (parse_gpx_file stem (create_gpx_from_waypoints ws name desc nowG)).waypoints =
      extractWps 0 (encodeWpsAux ws.length 0 ws) := by
  cases ws with
  | nil => exact absurd rfl h
  | cons p rest =>
    have h1 : encodeWpsAux (p :: rest).length 0 (p :: rest) ≠ [] :=
      encodeWpsAux_ne_nil _ p rest
    unfold parse_gpx_file create_gpx_from_waypoints
    rcases h2 : encodeWpsAux (p :: rest).length 0 (p :: rest) with _ | ⟨w, l⟩
    · exact absurd h2 h1
    · simp [h2, extractWps]

/-! Claims C3 and C4: the codec. -/

/-- Claim C3 (counterexample): a parseable document with one non-empty
track of a single point and no explicit waypoint elements decodes to a
result with track geometry but an empty waypoint list, so the fallback
does not guarantee two synthesized waypoints per non-empty track. -/
theorem parse_one_point_track_counterexample :
    (parse_gpx_file (S (r"t"))
      { name := none, description := none, tracks := [[[(0, 0)]]], waypoints := [] }).tracks =
      [[((0 : ℚ), (0 : ℚ))]] ∧
    (parse_gpx_file (S (r"t"))
      { name := none, description := none, tracks := [[[(0, 0)]]], waypoints := [] }).waypoints =
      [] := by
  constructor
  · rfl
  · rfl

/-- Claim C3 (amended): when the document declares zero explicit waypoints,
the decoded waypoint list synthesizes exactly two waypoints (the first
point labeled Start and the last labeled End) per decoded track having at
least two points, and none for shorter tracks; hence it has at least two
entries whenever some decoded track has at least two points. -/
theorem parse_fallback_endpoints (stem : Str) (doc : GpxDoc)
    (h : doc.waypoints = []) :
    (parse_gpx_file stem doc).waypoints =
      ((parse_gpx_file stem doc).tracks.map (fun t =>
        if 2 ≤ t.length then
          [⟨(t.headD (0, 0)).1, (t.headD (0, 0)).2, S (r"Start")⟩,
           ⟨(t.getLastD (0, 0)).1, (t.getLastD (0, 0)).2, S (r"End")⟩]
        else [])).flatten ∧
    ((∃ t, t ∈ (parse_gpx_file stem doc).tracks ∧ 2 ≤ t.length) →
      2 ≤ (parse_gpx_file stem doc).waypoints.length) := by
  have htr : (parse_gpx_file stem doc).tracks = extractTracks doc := rfl
  have hwp : (parse_gpx_file stem doc).waypoints =
      (if (extractWps 0 doc.waypoints).isEmpty && ! (extractTracks doc).isEmpty
       then ((extractTracks doc).map trackEndpoints).flatten
       else extractWps 0 doc.waypoints) := rfl
  rw [h] at hwp
  constructor
  · rw [hwp, htr]
    cases htrn : extractTracks doc with
    | nil => simp [extractWps]
    | cons t ts =>
      split
      · rfl
      · next hfalse => exact absurd rfl hfalse
  · rintro ⟨t, ht, h2⟩
    rw [htr] at ht
    cases htrn : extractTracks doc with
    | nil => rw [htrn] at ht; simp at ht
    | cons t0 ts =>
      rw [htrn] at ht hwp
      rw [hwp]
      split
      · have hlen2 : (trackEndpoints t).length = 2 := by
          simp [trackEndpoints, h2]
        have hmem : (trackEndpoints t).length ∈
            (((t0 :: ts).map trackEndpoints).map List.length) :=
          List.mem_map_of_mem _ (List.mem_map_of_mem _ ht)
        have hsum : (trackEndpoints t).length ≤
            (((t0 :: ts).map trackEndpoints).map List.length).sum :=
          List.single_le_sum (fun x _ => Nat.zero_le x) _ hmem
        rw [List.length_flatten]
        omega
      · next hfalse => exact absurd rfl hfalse

/-- Claim C3 witness: a three point track with no explicit waypoints gets
at least two synthesized waypoints. -/
theorem parse_fallback_endpoints_witness :
    2 ≤ (parse_gpx_file (S (r"t"))
      { name := none, description := none,
        tracks := [[[(0, 0), (1, 1), (2, 2)]]], waypoints := [] }).waypoints.length := by
  exact (parse_fallback_endpoints (S (r"t"))
    { name := none, description := none,
      tracks := [[[(0, 0), (1, 1), (2, 2)]]], waypoints := [] } rfl).2
    ⟨[(0, 0), (1, 1), (2, 2)], by decide, by decide⟩

/-- Claim C4: for at least two input waypoints, decoding the document
produced by create_gpx_from_waypoints yields exactly one track equal to
the ordered (lat, lon) coordinate sequence of the input, so tracks[0] is
the original sequence with order and values preserved. -/
theorem roundtrip_tracks (ws : List InPoint) (name desc nowG stem : Str)
    (h : 2 ≤ ws.length) :
    (parse_gpx_file stem (create_gpx_from_waypoints ws name desc nowG)).tracks =
      [ws.map (fun p => (p.lat, p.lon))] ∧
    (parse_gpx_file stem (create_gpx_from_waypoints ws name desc nowG)).tracks.headD [] =
      ws.map (fun p => (p.lat, p.lon)) := by
  have hne : ws ≠ [] := by
    intro hnil
    rw [hnil] at h
    simp at h
  have ht := parse_create_tracks ws name desc nowG stem hne
  exact ⟨ht, by rw [ht]; rfl⟩

/-- Claim C4 witness: the round trip at a concrete two point sequence. -/
theorem roundtrip_tracks_witness :
    (parse_gpx_file (S (r"t")) (create_gpx_from_waypoints
      [⟨1, 2, none⟩, ⟨3, 4, none⟩] (S (r"n")) [] (S (r"g")))).tracks =
      [[((1 : ℚ), (2 : ℚ)), (3, 4)]] := by
  have h := roundtrip_tracks [⟨1, 2, none⟩, ⟨3, 4, none⟩]
    (S (r"n")) [] (S (r"g")) (S (r"t")) (by decide)
  simpa using h.1

/-! Claim C5: the bounds overlap predicate. -/

/-- Claim C5: overlap is true when either box is absent; with both boxes
present it is true exactly when the rectangular intersection has positive
height and width, the route box has positive area, and the ratio of the
intersection area to the route area reaches the threshold. -/
theorem bounds_overlap_spec (rb mb : Option Bounds) (minOverlap : ℚ) :
    ((rb = none ∨ mb = none) → get_route_bounds_overlap rb mb minOverlap = true) ∧
    (∀ r m, rb = some r → mb = some m →
      (get_route_bounds_overlap rb mb minOverlap = true ↔
        (0 < min r.north m.north - max r.south m.south ∧
         0 < min r.east m.east - max r.west m.west ∧
         0 < (r.north - r.south) * (r.east - r.west) ∧
         minOverlap ≤ ((min r.north m.north - max r.south m.south) *
             (min r.east m.east - max r.west m.west)) /
           ((r.north - r.south) * (r.east - r.west))))) := by
  constructor
  · rintro (rfl | rfl)
    · rfl
    · cases rb with
      | none => rfl
      | some r => rfl
  · rintro r m rfl rfl
    show (if min r.north m.north ≤ max r.south m.south ∨
            min r.east m.east ≤ max r.west m.west then false
          else if (r.north - r.south) * (r.east - r.west) ≤ 0 then false
          else decide (minOverlap ≤ ((min r.north m.north - max r.south m.south) *
              (min r.east m.east - max r.west m.west)) /
            ((r.north - r.south) * (r.east - r.west)))) = true ↔ _
    split_ifs with h1 h2
    · simp only [Bool.false_eq_true, false_iff]
      rintro ⟨ha, hb, _, _⟩
      rcases h1 with h1 | h1 <;> linarith
    · simp only [Bool.false_eq_true, false_iff]
      rintro ⟨_, _, hc, _⟩
      linarith
    · push_neg at h1 h2
      rw [decide_eq_true_iff]
      constructor
      · intro hx
        exact ⟨by linarith [h1.1], by linarith [h1.2], by linarith, hx⟩
      · rintro ⟨_, _, _, hx⟩
        exact hx

/-- Claim C5 witness: both boxes absent gives true, and two identical unit
boxes overlap fully at the default threshold. -/
theorem bounds_overlap_spec_witness :
    get_route_bounds_overlap none none (3 / 5) = true ∧
    get_route_bounds_overlap (some ⟨1, 0, 1, 0⟩) (some ⟨1, 0, 1, 0⟩) (3 / 5) = true := by
  constructor
  · exact (bounds_overlap_spec none none (3 / 5)).1 (Or.inl rfl)
  · exact ((bounds_overlap_spec (some ⟨1, 0, 1, 0⟩) (some ⟨1, 0, 1, 0⟩) (3 / 5)).2
      ⟨1, 0, 1, 0⟩ ⟨1, 0, 1, 0⟩ rfl rfl).mpr (by norm_num)

/-! Claim C9: the route list sort can raise. -/

/-- Claim C9: a storage state with two decodable routes of equal favorite
status, one carrying a modified_at string and the other none, makes the
sort key comparison compare None against a string, so get_routes fails
instead of returning a sorted route list. -/
theorem get_routes_sort_can_raise :
    (buildItem stMixed none (S (r"a.gpx"))).isSome = true ∧
    (buildItem stMixed none (S (r"b.gpx"))).isSome = true ∧
    (buildItem stMixed none (S (r"a.gpx"))).map (fun x => x.is_favorite) = some false ∧
    (buildItem stMixed none (S (r"b.gpx"))).map (fun x => x.is_favorite) = some false ∧
    (buildItem stMixed none (S (r"a.gpx"))).map (fun x => x.modified_at) =
      some (some (S (r"2024-01-01T00:00:00"))) ∧
    (buildItem stMixed none (S (r"b.gpx"))).map (fun x => x.modified_at) = some none ∧
    get_routes stMixed none = none :=
  ⟨rfl, rfl, rfl, rfl, rfl, rfl, rfl⟩

/-! Claims C1 and C2: the version file handling of get_routes and delete. -/

/-- Claim C1 (counterexample): after snapshotting `r.gpx`, get_routes
returns both the live route and the version snapshot file, whose metadata
record carries is_version = true, so version snapshots are not excluded
from the route list. -/
theorem get_routes_includes_versions_counterexample :
    (get_routes stSnap none).map (fun l => l.map (fun x => x.filename)) =
      some [S (r"r.gpx"), S (r"r_v_20240101_000000.gpx")] ∧
    matchesVersionPattern (S (r"r.gpx")) (S (r"r_v_20240101_000000.gpx")) = true ∧
    (alookup (S (r"r_v_20240101_000000.gpx")) stSnap.metadata).map
      (fun x => x.is_version) = some (some true) ∧
    (alookup (S (r"r_v_20240101_000000.gpx")) stSnap.metadata).map
      (fun x => x.original_file) = some (some (S (r"r.gpx"))) :=
  ⟨rfl, rfl, rfl, rfl⟩

/-- Claim C2 (counterexample): deleting `r.gpx` in a state with one version
snapshot returns true and removes both files, but the snapshot's metadata
entry (an is_version record pointing at `r.gpx`) is left in the store, so
the cascade does not remove version metadata entries. -/
theorem delete_keeps_version_metadata_counterexample :
    (delete_route stSnap (S (r"r.gpx"))).1 = true ∧
    alookup (S (r"r.gpx")) (delete_route stSnap (S (r"r.gpx"))).2.folder = none ∧
    alookup (S (r"r_v_20240101_000000.gpx"))
      (delete_route stSnap (S (r"r.gpx"))).2.folder = none ∧
    alookup (S (r"r.gpx")) (delete_route stSnap (S (r"r.gpx"))).2.metadata = none ∧
    (alookup (S (r"r_v_20240101_000000.gpx"))
        (delete_route stSnap (S (r"r.gpx"))).2.metadata).map (fun x => x.is_version) =
      some (some true) ∧
    (alookup (S (r"r_v_20240101_000000.gpx"))
        (delete_route stSnap (S (r"r.gpx"))).2.metadata).map (fun x => x.original_file) =
      some (some (S (r"r.gpx"))) := by
  refine ⟨by decide, by decide, by decide, by decide, by decide, by decide⟩

/-! Claim C7: the favorite toggle. -/

/-- Claim C7: toggling an absent file returns null and changes nothing;
toggling a present file flips the effective favorite flag and stamps
modified_at, and toggling twice restores the original flag value. -/
theorem toggle_favorite_involution (st : St) (f n1 n2 : Str) :
    ((alookup f st.folder) = none → toggle_favorite st f n1 = (none, st)) ∧
    ((alookup f st.folder).isSome = true →
      (toggle_favorite st f n1).1 = some (f, ! effFav st f) ∧
      effFav (toggle_favorite st f n1).2 f = ! effFav st f ∧
      modAt (toggle_favorite st f n1).2 f = some n1 ∧
      (toggle_favorite (toggle_favorite st f n1).2 f n2).1 = some (f, effFav st f) ∧
      effFav (toggle_favorite (toggle_favorite st f n1).2 f n2).2 f = effFav st f ∧
      modAt (toggle_favorite (toggle_favorite st f n1).2 f n2).2 f = some n2) := by
  constructor
  · intro h
    unfold toggle_favorite
    rw [if_pos (by simp [h])]
  · intro h
    have hc : ¬ ((alookup f st.folder).isNone = true) := by
      rcases hd : alookup f st.folder with _ | v
      · rw [hd] at h; simp at h
      · simp
    have hstep : ∀ (s : St) (nn : Str), alookup f s.folder = alookup f st.folder →
        (toggle_favorite s f nn).1 = some (f, ! effFav s f) ∧
        (toggle_favorite s f nn).2.folder = s.folder ∧
        effFav (toggle_favorite s f nn).2 f = ! effFav s f ∧
        modAt (toggle_favorite s f nn).2 f = some nn := by
      intro s nn hs
      have hcs : ¬ ((alookup f s.folder).isNone = true) := by rw [hs]; exact hc
      unfold toggle_favorite
      rw [if_neg hcs]
      rcases hm : alookup f s.metadata with _ | m
      · refine ⟨by simp [effFav, hm, emptyRec], rfl, ?_, ?_⟩
        · simp [effFav, hm, alookup_aset_self, emptyRec]
        · simp [modAt, hm, alookup_aset_self, emptyRec]
      · refine ⟨by simp [effFav, hm], rfl, ?_, ?_⟩
        · simp [effFav, hm, alookup_aset_self]
        · simp [modAt, hm, alookup_aset_self]
    obtain ⟨h1a, h1b, h1c, h1d⟩ := hstep st n1 rfl
    obtain ⟨h2a, h2b, h2c, h2d⟩ := hstep (toggle_favorite st f n1).2 n2 (by rw [h1b])
    refine ⟨h1a, h1c, h1d, ?_, ?_, h2d⟩
    · rw [h2a, h1c]
      simp
    · rw [h2c, h1c]
      simp

/-- Claim C7 witness: toggling `r.gpx` twice in the snapshot-free state. -/
theorem toggle_favorite_involution_witness :
    effFav (toggle_favorite (toggle_favorite stR (S (r"r.gpx")) (S (r"t1"))).2
      (S (r"r.gpx")) (S (r"t2"))).2 (S (r"r.gpx")) = effFav stR (S (r"r.gpx")) ∧
    toggle_favorite stR (S (r"missing.gpx")) (S (r"t1")) =
      (none, stR) := by
  constructor
  · exact ((toggle_favorite_involution stR (S (r"r.gpx")) (S (r"t1")) (S (r"t2"))).2
      (by decide)).2.2.2.2.1
  · exact (toggle_favorite_involution stR (S (r"missing.gpx")) (S (r"t1")) (S (r"t2"))).1
      (by decide)

/-! Claim C8: create_route validation and filename derivation. -/

theorem keepCh_lowerCh (n : Nat) : keepCh (lowerCh n) = keepCh n := by
  rw [Bool.eq_iff_iff]
  unfold lowerCh
  split_ifs with h
  · simp only [Bool.and_eq_true, decide_eq_true_eq] at h
    simp only [keepCh, isAlnumCh, Bool.or_eq_true, Bool.and_eq_true,
      decide_eq_true_eq, beq_iff_eq]
    omega
  · rfl

theorem replSpace_lowerCh (n : Nat) : replSpace (lowerCh n) = lowerCh (replSpace n) := by
  by_cases h32 : n = 32
  · subst h32
    decide
  · by_cases hAZ : 65 ≤ n ∧ n ≤ 90
    · have e1 : lowerCh n = n + 32 := by
        unfold lowerCh
        rw [if_pos (by simp [hAZ.1, hAZ.2])]
      have e2 : replSpace (n + 32) = n + 32 := by
        unfold replSpace
        rw [if_neg (by simp only [beq_iff_eq]; omega)]
      have e3 : replSpace n = n := by
        unfold replSpace
        rw [if_neg (by simpa using h32)]
      rw [e1, e2, e3, e1]
    · have e1 : lowerCh n = n := by
        unfold lowerCh
        rw [if_neg (by simp only [Bool.and_eq_true, decide_eq_true_eq]; exact hAZ)]
      have e3 : replSpace n = n := by
        unfold replSpace
        rw [if_neg (by simpa using h32)]
      rw [e1, e3, e1]

theorem safeName_eq_slugSpec (name : Str) :
    safeName name = (slugSpec (pyStrip name)).take 30 := by
  unfold safeName slugSpec
  have h1 : ((pyStrip name).map lowerCh).filter keepCh =
      ((pyStrip name).filter keepCh).map lowerCh := by
    rw [List.filter_map]
    have : keepCh ∘ lowerCh = keepCh := by
      funext n
      exact keepCh_lowerCh n
    rw [this]
  rw [h1, List.map_map, List.map_map]
  have h2 : replSpace ∘ lowerCh = lowerCh ∘ replSpace := by
    funext n
    exact replSpace_lowerCh n
  rw [h2]

/-- Claim C8 (counterexample): create_route derives the slug from the
trimmed name, so for a name with surrounding spaces the assigned filename
differs from the one obtained by the claim formula slug(name). -/
theorem create_slug_counterexample :
    createdFilename (create_route stEmpty (S (r" a ")) [⟨1, 2, none⟩, ⟨3, 4, none⟩]
      (S (r"cycling")) [] (S (r"abcd1234")) (S (r"g")) (S (r"i"))) =
      some (S (r"a_abcd1234.gpx")) ∧
    S (r"a_abcd1234.gpx") ≠
      (slugSpec (S (r" a "))).take 30 ++ S (r"_") ++ S (r"abcd1234") ++ S (r".gpx") := by
  constructor
  · rfl
  · decide

/-- Claim C8 (amended): create_route reports a validation failure exactly
when the waypoint list has fewer than 2 entries or the name trims to the
empty string (the checks precede every write), and on success the assigned
filename is the claimed slug applied to the trimmed name, truncated to 30
characters, then an underscore, the hex suffix and the .gpx extension. -/
theorem create_route_validation (st : St) (name : Str) (ws : List InPoint)
    (rt desc hex nowG nowIso : Str) :
    (isValErr (create_route st name ws rt desc hex nowG nowIso) = true ↔
      (ws.length < 2 ∨ pyStrip name = [])) ∧
    (2 ≤ ws.length → pyStrip name ≠ [] →
      createdFilename (create_route st name ws rt desc hex nowG nowIso) =
        some ((slugSpec (pyStrip name)).take 30 ++ S (r"_") ++ hex ++ S (r".gpx"))) := by
  constructor
  · unfold create_route
    split_ifs with h1 h2
    · simp only [isValErr, true_iff]
      exact Or.inl h1
    · simp only [isValErr, true_iff]
      exact Or.inr h2
    · simp only [isValErr, Bool.false_eq_true, false_iff]
      rintro (h | h)
      · exact h1 h
      · exact h2 h
  · intro ha hb
    unfold create_route
    rw [if_neg (by omega), if_neg hb]
    simp [createdFilename, safeName_eq_slugSpec]

/-- Claim C8 witness: a valid creation and the two rejected shapes. -/
theorem create_route_validation_witness :
    isValErr (create_route stEmpty (S (r"X")) [⟨1, 2, none⟩]
      (S (r"cycling")) [] (S (r"abcd1234")) (S (r"g")) (S (r"i"))) = true ∧
    isValErr (create_route stEmpty [] [⟨1, 2, none⟩, ⟨3, 4, none⟩]
      (S (r"cycling")) [] (S (r"abcd1234")) (S (r"g")) (S (r"i"))) = true ∧
    createdFilename (create_route stEmpty (S (r"X")) [⟨1, 2, none⟩, ⟨3, 4, none⟩]
      (S (r"cycling")) [] (S (r"abcd1234")) (S (r"g")) (S (r"i"))) =
      some (S (r"x_abcd1234.gpx")) := by
  refine ⟨?_, ?_, ?_⟩
  · exact (create_route_validation stEmpty (S (r"X")) [⟨1, 2, none⟩]
      (S (r"cycling")) [] (S (r"abcd1234")) (S (r"g")) (S (r"i"))).1.mpr (by decide)
  · exact (create_route_validation stEmpty [] [⟨1, 2, none⟩, ⟨3, 4, none⟩]
      (S (r"cycling")) [] (S (r"abcd1234")) (S (r"g")) (S (r"i"))).1.mpr (by decide)
  · have h := (create_route_validation stEmpty (S (r"X")) [⟨1, 2, none⟩, ⟨3, 4, none⟩]
      (S (r"cycling")) [] (S (r"abcd1234")) (S (r"g")) (S (r"i"))).2
      (by decide) (by decide)
    rw [h]
    decide

/-! Claim C2 (amended): the delete cascade on files and metadata. -/

theorem foldl_remove_metadata (vs : List Str) (st : St) :
    (vs.foldl (fun s vf => { s with folder := aremove vf s.folder }) st).metadata =
      st.metadata := by
  induction vs generalizing st with
  | nil => rfl
  | cons v vs ih => simpa using ih { st with folder := aremove v st.folder }

theorem foldl_remove_folder (vs : List Str) (st : St) :
    (vs.foldl (fun s vf => { s with folder := aremove vf s.folder }) st).folder =
      vs.foldl (fun fl vf => aremove vf fl) st.folder := by
  induction vs generalizing st with
  | nil => rfl
  | cons v vs ih => simpa using ih { st with folder := aremove v st.folder }

/-- Claim C2 (amended): deleting an absent file returns false and changes
nothing; deleting a present file returns true, removes its GPX file and
its metadata entry, removes every file matching the version filename
pattern, and leaves every other file and every other metadata entry (the
version snapshots' entries included) unchanged. -/
theorem delete_route_spec (st : St) (f : Str) :
    (alookup f st.folder = none → delete_route st f = (false, st)) ∧
    (∀ d, alookup f st.folder = some d →
      (delete_route st f).1 = true ∧
      alookup f (delete_route st f).2.folder = none ∧
      alookup f (delete_route st f).2.metadata = none ∧
      (∀ g, g ≠ f →
        alookup g (delete_route st f).2.folder =
          (if matchesVersionPattern f g = true then none else alookup g st.folder)) ∧
      (∀ g, g ≠ f →
        alookup g (delete_route st f).2.metadata = alookup g st.metadata)) := by
  constructor
  · intro h
    unfold delete_route
    rw [if_pos (by simp [h])]
  · intro d hd
    have hc1 : ¬ ((alookup f st.folder).isNone = true) := by simp [hd]
    have main : ∀ m2 : List (Str × MetaRec),
        (delete_route st f).2.metadata = m2 →
        (delete_route st f).2.folder =
          (get_version_files ⟨aremove f st.folder, m2⟩ f).foldl
            (fun fl vf => aremove vf fl) (aremove f st.folder) →
        (delete_route st f).1 = true →
        alookup f m2 = none →
        (∀ g, g ≠ f → alookup g m2 = alookup g st.metadata) →
        (delete_route st f).1 = true ∧
        alookup f (delete_route st f).2.folder = none ∧
        alookup f (delete_route st f).2.metadata = none ∧
        (∀ g, g ≠ f →
          alookup g (delete_route st f).2.folder =
            (if matchesVersionPattern f g = true then none else alookup g st.folder)) ∧
        (∀ g, g ≠ f →
          alookup g (delete_route st f).2.metadata = alookup g st.metadata) := by
      intro m2 hm2 hfol htrue hfm hgm
      refine ⟨htrue, ?_, ?_, ?_, ?_⟩
      · rw [hfol, alookup_foldl_aremove]
        split
        · rfl
        · exact alookup_aremove_self f st.folder
      · rw [hm2]
        exact hfm
      · intro g hg
        rw [hfol, alookup_foldl_aremove]
        have hvf : g ∈ get_version_files ⟨aremove f st.folder, m2⟩ f ↔
            (g ∈ (aremove f st.folder).map Prod.fst ∧ matchesVersionPattern f g = true) := by
          unfold get_version_files
          exact List.mem_filter
        by_cases hp : matchesVersionPattern f g = true
        · rw [if_pos hp]
          by_cases hgk : g ∈ (aremove f st.folder).map Prod.fst
          · rw [if_pos (hvf.mpr ⟨hgk, hp⟩)]
          · rw [if_neg (fun hmem => hgk (hvf.mp hmem).1)]
            rw [alookup_aremove_ne f g st.folder hg]
            rw [alookup_eq_none_iff]
            intro hmem
            exact hgk ((mem_keys_aremove f g st.folder).mpr ⟨hmem, hg⟩)
        · rw [if_neg hp, if_neg (fun hmem => hp (hvf.mp hmem).2)]
          exact alookup_aremove_ne f g st.folder hg
      · intro g hg
        rw [hm2]
        exact hgm g hg
    by_cases hm : (alookup f st.metadata).isSome = true
    · have hform : delete_route st f =
          (true, (get_version_files ⟨aremove f st.folder, aremove f st.metadata⟩ f).foldl
            (fun s vf => { s with folder := aremove vf s.folder })
            ⟨aremove f st.folder, aremove f st.metadata⟩) := by
        unfold delete_route
        rw [if_neg hc1]
        dsimp only
        rw [if_pos hm]
      refine main (aremove f st.metadata) ?_ ?_ ?_ ?_ ?_
      · rw [hform]
        exact foldl_remove_metadata _ _
      · rw [hform]
        exact foldl_remove_folder _ _
      · rw [hform]
      · exact alookup_aremove_self f st.metadata
      · intro g hg
        exact alookup_aremove_ne f g st.metadata hg
    · have hmn : alookup f st.metadata = none := by
        rcases hx : alookup f st.metadata with _ | v
        · rfl
        · rw [hx] at hm; simp at hm
      have hform : delete_route st f =
          (true, (get_version_files ⟨aremove f st.folder, st.metadata⟩ f).foldl
            (fun s vf => { s with folder := aremove vf s.folder })
            ⟨aremove f st.folder, st.metadata⟩) := by
        unfold delete_route
        rw [if_neg hc1]
        dsimp only
        rw [if_neg hm]
      refine main st.metadata ?_ ?_ ?_ hmn (fun g hg => rfl)
      · rw [hform]
        exact foldl_remove_metadata _ _
      · rw [hform]
        exact foldl_remove_folder _ _
      · rw [hform]

/-- Claim C2 witness: deleting the present route of the snapshot state. -/
theorem delete_route_spec_witness :
    (delete_route stSnap (S (r"r.gpx"))).1 = true ∧
    alookup (S (r"other.gpx")) (delete_route stSnap (S (r"r.gpx"))).2.metadata =
      alookup (S (r"other.gpx")) stSnap.metadata ∧
    delete_route stSnap (S (r"missing.gpx")) = (false, stSnap) := by
  refine ⟨?_, ?_, ?_⟩
  · exact ((delete_route_spec stSnap (S (r"r.gpx"))).2 (some docR) (by decide)).1
  · exact ((delete_route_spec stSnap (S (r"r.gpx"))).2 (some docR) (by decide)).2.2.2.2
      (S (r"other.gpx")) (by decide)
  · exact (delete_route_spec stSnap (S (r"missing.gpx"))).1 (by decide)

/-! Claim C1 (amended): what get_routes enumerates. -/

theorem buildItem_filename (st : St) (b : Option Bounds) (f : Str) (it : RouteItem)
    (h : buildItem st b f = some it) : it.filename = f := by
  unfold buildItem at h
  rcases h1 : alookup f st.folder with _ | o
  · rw [h1] at h
    simp at h
  · rcases o with _ | doc
    · rw [h1] at h
      simp at h
    · rw [h1] at h
      dsimp only at h
      split at h
      · injection h with h2
        rw [← h2]
      · cases h

theorem buildItem_none_isSome (st : St) (f : Str) :
    (buildItem st none f).isSome = ((alookup f st.folder).getD none).isSome := by
  unfold buildItem
  rcases h1 : alookup f st.folder with _ | o
  · rfl
  · rcases o with _ | doc
    · rfl
    · rfl

theorem mem_routeItems_filename (st : St) (f : Str) :
    (f ∈ (routeItems st none).map (fun x => x.filename)) ↔
      (f ∈ st.folder.map Prod.fst ∧ strHasSuf (S (r".gpx")) f = true ∧
       strHasPre (S (r".")) f = false ∧ ((alookup f st.folder).getD none).isSome = true) := by
  unfold routeItems
  simp only [List.mem_map, List.mem_filterMap]
  constructor
  · rintro ⟨it, ⟨g, hg, hbuild⟩, rfl⟩
    have hgf : it.filename = g := buildItem_filename _ _ _ _ hbuild
    rw [hgf]
    have hg2 := (mem_sortByLe _ _ _).mp hg
    rw [List.mem_filter] at hg2
    obtain ⟨hgmem, hgcond⟩ := hg2
    rw [Bool.and_eq_true] at hgcond
    obtain ⟨hsuf, hpre⟩ := hgcond
    refine ⟨List.mem_map.mp hgmem, hsuf, by simpa using hpre, ?_⟩
    rw [← buildItem_none_isSome, hbuild]
    rfl
  · rintro ⟨hmem, hsuf, hpre, hsome⟩
    have hb : (buildItem st none f).isSome = true := by
      rw [buildItem_none_isSome]
      exact hsome
    rcases hx : buildItem st none f with _ | it
    · rw [hx] at hb
      simp at hb
    · refine ⟨it, ⟨f, ?_, hx⟩, buildItem_filename _ _ _ _ hx⟩
      rw [mem_sortByLe, List.mem_filter]
      exact ⟨List.mem_map.mpr hmem, by simp [hsuf, hpre]⟩

/-- Claim C1 (amended): whenever get_routes returns a list, its filenames
are exactly the folder entries ending in .gpx, not starting with a dot,
whose stored content decodes — with no exclusion of version snapshot
files. -/
theorem get_routes_enumerates_all_gpx (st : St) (f : Str)
    (h : (get_routes st none).isSome = true) :
    (f ∈ ((get_routes st none).getD []).map (fun x => x.filename)) ↔
      (f ∈ st.folder.map Prod.fst ∧ strHasSuf (S (r".gpx")) f = true ∧
       strHasPre (S (r".")) f = false ∧ ((alookup f st.folder).getD none).isSome = true) := by
  rcases hl : get_routes st none with _ | l
  · rw [hl] at h
    simp at h
  · have hperm : l.Perm (routeItems st none) := sortCmp_perm _ _ _ hl
    have hmm : (f ∈ l.map (fun x => x.filename)) ↔
        f ∈ (routeItems st none).map (fun x => x.filename) :=
      (hperm.map (fun x => x.filename)).mem_iff
    rw [Option.getD_some, hmm]
    exact mem_routeItems_filename st f

/-- Claim C1 witness: in the snapshot state the version file is listed. -/
theorem get_routes_enumerates_all_gpx_witness :
    (S (r"r_v_20240101_000000.gpx")) ∈
      ((get_routes stSnap none).getD []).map (fun x => x.filename) := by
  exact (get_routes_enumerates_all_gpx stSnap (S (r"r_v_20240101_000000.gpx")) rfl).mpr
    ⟨by decide, by decide, by decide, by decide⟩

/-! Claim C10: waypoint thinning under the read-after-write. -/

theorem get_route_of_created (st2 : St) (fn nm ds nowG : Str) (ws : List InPoint)
    (h2 : 2 ≤ ws.length)
    (h : alookup fn st2.folder = some (some (create_gpx_from_waypoints ws nm ds nowG))) :
    (get_route st2 fn).map (fun x => x.tracks) =
      some [ws.map (fun p => (p.lat, p.lon))] ∧
    (5 < ws.length →
      (get_route st2 fn).map (fun x => x.waypoints.map (fun w => (w.lat, w.lon))) =
        some [((ws.headD dIn).lat, (ws.headD dIn).lon),
              ((ws.getLastD dIn).lat, (ws.getLastD dIn).lon)]) ∧
    (ws.length ≤ 5 →
      (get_route st2 fn).map (fun x => x.waypoints.map (fun w => (w.lat, w.lon))) =
        some (ws.map (fun p => (p.lat, p.lon)))) := by
  have hne : ws ≠ [] := by
    intro hnil
    rw [hnil] at h2
    simp at h2
  have htr : (get_route st2 fn).map (fun x => x.tracks) =
      some (parse_gpx_file (splitextStem fn) (create_gpx_from_waypoints ws nm ds nowG)).tracks := by
    unfold get_route
    rw [h]
    rfl
  have hwp : (get_route st2 fn).map (fun x => x.waypoints) =
      some (parse_gpx_file (splitextStem fn) (create_gpx_from_waypoints ws nm ds nowG)).waypoints := by
    unfold get_route
    rw [h]
    rfl
  have hcomp : (get_route st2 fn).map (fun x => x.waypoints.map (fun w => (w.lat, w.lon))) =
      ((get_route st2 fn).map (fun x => x.waypoints)).map
        (fun l => l.map (fun w => (w.lat, w.lon))) := by
    cases get_route st2 fn <;> rfl
  have hpw : (parse_gpx_file (splitextStem fn)
        (create_gpx_from_waypoints ws nm ds nowG)).waypoints.map (fun w => (w.lat, w.lon)) =
      (encodeWpsAux ws.length 0 ws).map (fun w => (w.lat, w.lon)) := by
    rw [parse_create_waypoints ws nm ds nowG _ hne, extractWps_coords]
  refine ⟨?_, ?_, ?_⟩
  · rw [htr, parse_create_tracks ws nm ds nowG _ hne]
  · intro h5
    rw [hcomp, hwp]
    have hm : ((some ((parse_gpx_file (splitextStem fn)
          (create_gpx_from_waypoints ws nm ds nowG)).waypoints)).map
        (fun l => l.map (fun w => (w.lat, w.lon)))) =
        some ((parse_gpx_file (splitextStem fn)
          (create_gpx_from_waypoints ws nm ds nowG)).waypoints.map
            (fun w => (w.lat, w.lon))) := rfl
    rw [hm, hpw, encodeWpsAux_coords_large ws.length h5 ws rfl]
  · intro h5
    rw [hcomp, hwp]
    have hm : ((some ((parse_gpx_file (splitextStem fn)
          (create_gpx_from_waypoints ws nm ds nowG)).waypoints)).map
        (fun l => l.map (fun w => (w.lat, w.lon)))) =
        some ((parse_gpx_file (splitextStem fn)
          (create_gpx_from_waypoints ws nm ds nowG)).waypoints.map
            (fun w => (w.lat, w.lon))) := rfl
    rw [hm, hpw, encodeWpsAux_coords_small ws.length h5 0 ws]

/-- Claim C10: for a successful create (and likewise a successful update
on a present file), the re-read route's single track holds all input
coordinates in order, while its waypoint list holds exactly the first and
last input points when the input has more than 5 points, and all input
points when it has at most 5. -/
theorem waypoint_thinning (st : St) (name : Str) (ws : List InPoint)
    (rt desc hex nowG nowIso f : Str) (nameOpt descOpt : Option Str)
    (h2 : 2 ≤ ws.length) (hname : pyStrip name ≠ [])
    (hf : (alookup f st.folder).isSome = true) :
    ((createdRoute (create_route st name ws rt desc hex nowG nowIso)).map
        (fun x => x.tracks) = some [ws.map (fun p => (p.lat, p.lon))] ∧
     (5 < ws.length →
       (createdRoute (create_route st name ws rt desc hex nowG nowIso)).map
         (fun x => x.waypoints.map (fun w => (w.lat, w.lon))) =
         some [((ws.headD dIn).lat, (ws.headD dIn).lon),
               ((ws.getLastD dIn).lat, (ws.getLastD dIn).lon)]) ∧
     (ws.length ≤ 5 →
       (createdRoute (create_route st name ws rt desc hex nowG nowIso)).map
         (fun x => x.waypoints.map (fun w => (w.lat, w.lon))) =
         some (ws.map (fun p => (p.lat, p.lon))))) ∧
    ((updatedRoute (update_route st f ws nameOpt descOpt nowG nowIso)).map
        (fun x => x.tracks) = some [ws.map (fun p => (p.lat, p.lon))] ∧
     (5 < ws.length →
       (updatedRoute (update_route st f ws nameOpt descOpt nowG nowIso)).map
         (fun x => x.waypoints.map (fun w => (w.lat, w.lon))) =
         some [((ws.headD dIn).lat, (ws.headD dIn).lon),
               ((ws.getLastD dIn).lat, (ws.getLastD dIn).lon)]) ∧
     (ws.length ≤ 5 →
       (updatedRoute (update_route st f ws nameOpt descOpt nowG nowIso)).map
         (fun x => x.waypoints.map (fun w => (w.lat, w.lon))) =
         some (ws.map (fun p => (p.lat, p.lon))))) := by
  have hlt : ¬ (ws.length < 2) := by omega
  constructor
  · have hsh : ∃ st2 : St, ∃ fn : Str,
        createdRoute (create_route st name ws rt desc hex nowG nowIso) = get_route st2 fn ∧
        alookup fn st2.folder =
          some (some (create_gpx_from_waypoints ws name desc nowG)) := by
      unfold create_route
      rw [if_neg hlt, if_neg hname]
      exact ⟨_, _, rfl, alookup_aset_self _ _ _⟩
    obtain ⟨st2, fn, he, ha⟩ := hsh
    rw [he]
    exact get_route_of_created st2 fn name desc nowG ws h2 ha
  · have hc : ¬ ((alookup f st.folder).isNone = true) := by
      rcases hd : alookup f st.folder with _ | v
      · rw [hd] at hf
        simp at hf
      · simp
    have hsh : ∃ st2 : St, ∃ nm ds : Str,
        updatedRoute (update_route st f ws nameOpt descOpt nowG nowIso) = get_route st2 f ∧
        alookup f st2.folder = some (some (create_gpx_from_waypoints ws nm ds nowG)) := by
      unfold update_route
      rw [if_neg hc, if_neg hlt]
      exact ⟨_, _, _, rfl, alookup_aset_self _ _ _⟩
    obtain ⟨st2, nm, ds, he, ha⟩ := hsh
    rw [he]
    exact get_route_of_created st2 f nm ds nowG ws h2 ha

/-- Claim C10 witness: a 6 point creation keeps only the endpoints as
waypoints while the track keeps all 6 points, and a 3 point update keeps
all 3; applied at concrete states. -/
theorem waypoint_thinning_witness :
    (createdRoute (create_route stR (S (r"n"))
        [⟨0, 0, none⟩, ⟨1, 1, none⟩, ⟨2, 2, none⟩, ⟨3, 3, none⟩, ⟨4, 4, none⟩, ⟨5, 5, none⟩]
        (S (r"cycling")) [] (S (r"abcd1234")) (S (r"g")) (S (r"i")))).map
      (fun x => x.waypoints.map (fun w => (w.lat, w.lon))) =
      some [((0 : ℚ), (0 : ℚ)), (5, 5)] ∧
    (updatedRoute (update_route stR (S (r"r.gpx"))
        [⟨0, 0, none⟩, ⟨1, 1, none⟩, ⟨2, 2, none⟩] none none (S (r"g")) (S (r"i")))).map
      (fun x => x.waypoints.map (fun w => (w.lat, w.lon))) =
      some [((0 : ℚ), (0 : ℚ)), (1, 1), (2, 2)] := by
  constructor
  · have h := (waypoint_thinning stR (S (r"n"))
      [⟨0, 0, none⟩, ⟨1, 1, none⟩, ⟨2, 2, none⟩, ⟨3, 3, none⟩, ⟨4, 4, none⟩, ⟨5, 5, none⟩]
      (S (r"cycling")) [] (S (r"abcd1234")) (S (r"g")) (S (r"i")) (S (r"r.gpx"))
      none none (by decide) (by decide) (by decide)).1.2.1 (by decide)
    simpa using h
  · have h := (waypoint_thinning stR (S (r"n"))
      [⟨0, 0, none⟩, ⟨1, 1, none⟩, ⟨2, 2, none⟩]
      (S (r"cycling")) [] (S (r"abcd1234")) (S (r"g")) (S (r"i")) (S (r"r.gpx"))
      none none (by decide) (by decide) (by decide)).2.2.2 (by decide)
    simpa using h

/-! Claim C6: route statistics. -/

theorem arctan_nonneg_of_nonneg (t : ℝ) (ht : 0 ≤ t) : 0 ≤ Real.arctan t := by
  have h := Real.arctan_strictMono.monotone ht
  rwa [Real.arctan_zero] at h

theorem atan2_nonneg (y x : ℝ) (hy : 0 ≤ y) : 0 ≤ atan2 y x := by
  unfold atan2
  split_ifs with hx hxn hyp hyn
  · exact arctan_nonneg_of_nonneg _ (div_nonneg hy (le_of_lt hx))
  · have h1 := Real.neg_pi_div_two_lt_arctan (y / x)
    have hpi := Real.pi_pos
    linarith
  · have hpi := Real.pi_pos
    linarith
  · linarith
  · exact le_refl 0

theorem haversine_nonneg (a b c d : ℚ) : 0 ≤ haversine_distance a b c d := by
  unfold haversine_distance
  refine mul_nonneg (by norm_num) (mul_nonneg (by norm_num)
    (atan2_nonneg _ _ (Real.sqrt_nonneg _)))

theorem totalDist_nonneg (ws : List Wpt) : 0 ≤ totalDist ws := by
  induction ws with
  | nil => exact le_refl 0
  | cons a tail ih =>
    cases tail with
    | nil => exact le_refl 0
    | cons b rest =>
      have h1 : totalDist (a :: b :: rest) =
          haversine_distance a.lat a.lon b.lat b.lon + totalDist (b :: rest) := rfl
      rw [h1]
      have h2 := haversine_nonneg a.lat a.lon b.lat b.lon
      linarith

theorem totalDist_append_le (ws : List Wpt) (w : Wpt) :
    totalDist ws ≤ totalDist (ws ++ [w]) := by
  induction ws with
  | nil => exact le_refl 0
  | cons a tail ih =>
    cases tail with
    | nil =>
      have h1 : totalDist ([a] ++ [w]) = haversine_distance a.lat a.lon w.lat w.lon + 0 := rfl
      have h2 := haversine_nonneg a.lat a.lon w.lat w.lon
      have h3 : totalDist [a] = 0 := rfl
      rw [h1, h3]
      linarith
    | cons b rest =>
      have h1 : totalDist (a :: b :: rest) =
          haversine_distance a.lat a.lon b.lat b.lon + totalDist (b :: rest) := rfl
      have h2 : totalDist ((a :: b :: rest) ++ [w]) =
          haversine_distance a.lat a.lon b.lat b.lon + totalDist ((b :: rest) ++ [w]) := rfl
      rw [h1, h2]
      linarith [ih]

theorem rne_nonneg (x : ℝ) (h : 0 ≤ x) : 0 ≤ rne x := by
  unfold rne
  have hf : (0 : ℤ) ≤ ⌊x⌋ := Int.floor_nonneg.mpr h
  split_ifs <;> omega

theorem rne_mono {x y : ℝ} (h : x ≤ y) : rne x ≤ rne y := by
  unfold rne
  have hf : ⌊x⌋ ≤ ⌊y⌋ := Int.floor_mono h
  rcases lt_or_eq_of_le hf with hlt | heq
  · split_ifs <;> omega
  · rw [← heq]
    have hxy : x - (⌊x⌋ : ℝ) ≤ y - (⌊x⌋ : ℝ) := by linarith
    split_ifs <;> first | omega | linarith

theorem round2_nonneg (x : ℝ) (h : 0 ≤ x) : 0 ≤ round2 x := by
  unfold round2
  have h1 := rne_nonneg (x * 100) (by linarith)
  have h2 : (0 : ℝ) ≤ (rne (x * 100) : ℝ) := by exact_mod_cast h1
  linarith

theorem round2_mono {x y : ℝ} (h : x ≤ y) : round2 x ≤ round2 y := by
  unfold round2
  have h1 := rne_mono (show x * 100 ≤ y * 100 by linarith)
  have h2 : ((rne (x * 100) : ℝ)) ≤ (rne (y * 100) : ℝ) := by exact_mod_cast h1
  linarith

theorem foldl_max_mem (x : ℚ) (xs : List ℚ) : xs.foldl max x ∈ x :: xs := by
  induction xs generalizing x with
  | nil => simp
  | cons y ys ih =>
    have h := ih (max x y)
    simp only [List.foldl_cons, List.mem_cons]
    rcases List.mem_cons.mp h with h1 | h1
    · rcases max_choice x y with h2 | h2
      · exact Or.inl (h1.trans h2)
      · exact Or.inr (Or.inl (h1.trans h2))
    · exact Or.inr (Or.inr h1)

theorem seed_le_foldl_max (x : ℚ) (ys : List ℚ) : x ≤ ys.foldl max x := by
  induction ys generalizing x with
  | nil => exact le_refl x
  | cons y ys ih => exact le_trans (le_max_left x y) (ih (max x y))

theorem le_foldl_max (x a : ℚ) (xs : List ℚ) (h : a ∈ x :: xs) :
    a ≤ xs.foldl max x := by
  induction xs generalizing x with
  | nil =>
    simp at h
    simp [h]
  | cons y ys ih =>
    simp only [List.foldl_cons]
    rcases List.mem_cons.mp h with h1 | h1
    · subst h1
      exact le_trans (le_max_left a y) (seed_le_foldl_max _ _)
    · rcases List.mem_cons.mp h1 with h2 | h2
      · subst h2
        exact le_trans (le_max_right x a) (seed_le_foldl_max _ _)
      · exact ih (max x y) (List.mem_cons_of_mem _ h2)

theorem foldl_min_mem (x : ℚ) (xs : List ℚ) : xs.foldl min x ∈ x :: xs := by
  induction xs generalizing x with
  | nil => simp
  | cons y ys ih =>
    have h := ih (min x y)
    simp only [List.foldl_cons, List.mem_cons]
    rcases List.mem_cons.mp h with h1 | h1
    · rcases min_choice x y with h2 | h2
      · exact Or.inl (h1.trans h2)
      · exact Or.inr (Or.inl (h1.trans h2))
    · exact Or.inr (Or.inr h1)

theorem foldl_min_le_seed (x : ℚ) (ys : List ℚ) : ys.foldl min x ≤ x := by
  induction ys generalizing x with
  | nil => exact le_refl x
  | cons y ys ih => exact le_trans (ih (min x y)) (min_le_left x y)

theorem foldl_min_le (x a : ℚ) (xs : List ℚ) (h : a ∈ x :: xs) :
    xs.foldl min x ≤ a := by
  induction xs generalizing x with
  | nil =>
    simp at h
    simp [h]
  | cons y ys ih =>
    simp only [List.foldl_cons]
    rcases List.mem_cons.mp h with h1 | h1
    · subst h1
      exact le_trans (foldl_min_le_seed _ _) (min_le_left a y)
    · rcases List.mem_cons.mp h1 with h2 | h2
      · subst h2
        exact le_trans (foldl_min_le_seed _ _) (min_le_right x a)
      · exact ih (min x y) (List.mem_cons_of_mem _ h2)

theorem listMax_mem (l : List ℚ) (h : l ≠ []) : listMax l ∈ l := by
  cases l with
  | nil => exact absurd rfl h
  | cons x xs => exact foldl_max_mem x xs

theorem le_listMax (l : List ℚ) (a : ℚ) (h : a ∈ l) : a ≤ listMax l := by
  cases l with
  | nil => simp at h
  | cons x xs => exact le_foldl_max x a xs h

theorem listMin_mem (l : List ℚ) (h : l ≠ []) : listMin l ∈ l := by
  cases l with
  | nil => exact absurd rfl h
  | cons x xs => exact foldl_min_mem x xs

theorem listMin_le (l : List ℚ) (a : ℚ) (h : a ∈ l) : listMin l ≤ a := by
  cases l with
  | nil => simp at h
  | cons x xs => exact foldl_min_le x a xs h

theorem sin_half_sq (x : ℝ) : Real.sin (x / 2) ^ 2 = (1 - Real.cos x) / 2 := by
  have h := Real.cos_two_mul (x / 2)
  have h2 : 2 * (x / 2) = x := by ring
  rw [h2] at h
  have h3 := Real.sin_sq_add_cos_sq (x / 2)
  linarith

theorem cs3 (a1 a2 a3 b1 b2 b3 : ℝ) :
    (a1 * b1 + a2 * b2 + a3 * b3) ^ 2 ≤
      (a1 ^ 2 + a2 ^ 2 + a3 ^ 2) * (b1 ^ 2 + b2 ^ 2 + b3 ^ 2) := by
  nlinarith [sq_nonneg (a1 * b2 - a2 * b1), sq_nonneg (a1 * b3 - a3 * b1),
    sq_nonneg (a2 * b3 - a3 * b2)]

theorem radians_sub (a b : ℚ) : radians (a - b) = radians a - radians b := by
  unfold radians
  push_cast
  ring

theorem arccos_antitone {x y : ℝ} (h : x ≤ y) : Real.arccos y ≤ Real.arccos x := by
  unfold Real.arccos
  have h2 := Real.monotone_arcsin h
  linarith

/-- The spherical key bound: for unit vectors u, v, w the inner product of
u and w is at least cos of the sum of the angles through v. -/
theorem dot_bound (u1 u2 u3 v1 v2 v3 w1 w2 w3 c1 c2 c3 : ℝ)
    (hu : u1 ^ 2 + u2 ^ 2 + u3 ^ 2 = 1) (hv : v1 ^ 2 + v2 ^ 2 + v3 ^ 2 = 1)
    (hw : w1 ^ 2 + w2 ^ 2 + w3 ^ 2 = 1)
    (hc1 : c1 = u1 * v1 + u2 * v2 + u3 * v3)
    (hc2 : c2 = v1 * w1 + v2 * w2 + v3 * w3)
    (hc3 : c3 = u1 * w1 + u2 * w2 + u3 * w3) :
    c1 * c2 - Real.sqrt (1 - c1 ^ 2) * Real.sqrt (1 - c2 ^ 2) ≤ c3 := by
  have e1 : (u1 - c1 * v1) ^ 2 + (u2 - c1 * v2) ^ 2 + (u3 - c1 * v3) ^ 2 = 1 - c1 ^ 2 := by
    linear_combination hu + c1 ^ 2 * hv + 2 * c1 * hc1
  have e2 : (w1 - c2 * v1) ^ 2 + (w2 - c2 * v2) ^ 2 + (w3 - c2 * v3) ^ 2 = 1 - c2 ^ 2 := by
    linear_combination hw + c2 ^ 2 * hv + 2 * c2 * hc2
  have e3 : (u1 - c1 * v1) * (w1 - c2 * v1) + (u2 - c1 * v2) * (w2 - c2 * v2) +
      (u3 - c1 * v3) * (w3 - c2 * v3) = c3 - c1 * c2 := by
    linear_combination (-1) * hc3 + c2 * hc1 + c1 * hc2 + c1 * c2 * hv
  have hcs := cs3 (u1 - c1 * v1) (u2 - c1 * v2) (u3 - c1 * v3)
    (w1 - c2 * v1) (w2 - c2 * v2) (w3 - c2 * v3)
  rw [e1, e2, e3] at hcs
  have h1n : 0 ≤ 1 - c1 ^ 2 := by
    rw [← e1]
    positivity
  have habs : |c3 - c1 * c2| ≤ Real.sqrt ((1 - c1 ^ 2) * (1 - c2 ^ 2)) := by
    rw [← Real.sqrt_sq_eq_abs]
    exact Real.sqrt_le_sqrt hcs
  rw [Real.sqrt_mul h1n] at habs
  have hneg := neg_abs_le (c3 - c1 * c2)
  linarith

theorem arccos_add_of_cos_bound (c1 c2 c3 : ℝ) (h1l : -1 ≤ c1) (h1r : c1 ≤ 1)
    (h2l : -1 ≤ c2) (h2r : c2 ≤ 1)
    (hkey : c1 * c2 - Real.sqrt (1 - c1 ^ 2) * Real.sqrt (1 - c2 ^ 2) ≤ c3) :
    Real.arccos c3 ≤ Real.arccos c1 + Real.arccos c2 := by
  by_cases hpi : Real.pi ≤ Real.arccos c1 + Real.arccos c2
  · exact le_trans (Real.arccos_le_pi c3) hpi
  · push_neg at hpi
    have hcos : Real.cos (Real.arccos c1 + Real.arccos c2) ≤ c3 := by
      rw [Real.cos_add, Real.cos_arccos h1l h1r, Real.cos_arccos h2l h2r,
        Real.sin_arccos, Real.sin_arccos]
      exact hkey
    have h0ab : 0 ≤ Real.arccos c1 + Real.arccos c2 :=
      add_nonneg (Real.arccos_nonneg c1) (Real.arccos_nonneg c2)
    calc Real.arccos c3 ≤ Real.arccos (Real.cos (Real.arccos c1 + Real.arccos c2)) :=
          arccos_antitone hcos
      _ = Real.arccos c1 + Real.arccos c2 := Real.arccos_cos h0ab (le_of_lt hpi)

theorem two_atan2_sqrt (A : ℝ) (h0 : 0 ≤ A) (h1 : A ≤ 1) :
    2 * atan2 (Real.sqrt A) (Real.sqrt (1 - A)) = Real.arccos (1 - 2 * A) := by
  rcases eq_or_lt_of_le h1 with heq | hlt
  · rw [heq]
    have ha10 : atan2 1 0 = Real.pi / 2 := by
      unfold atan2
      rw [if_neg (lt_irrefl 0), if_neg (lt_irrefl 0), if_pos one_pos]
    have e1 : (1 : ℝ) - 1 = 0 := by norm_num
    have e2 : (1 : ℝ) - 2 * 1 = -1 := by norm_num
    rw [e1, e2, Real.sqrt_zero, Real.sqrt_one, ha10, Real.arccos_neg_one]
    ring
  · have hx : 0 < Real.sqrt (1 - A) := Real.sqrt_pos.mpr (by linarith)
    unfold atan2
    rw [if_pos hx]
    set t := Real.sqrt A / Real.sqrt (1 - A) with ht
    have ht0 : 0 ≤ t := div_nonneg (Real.sqrt_nonneg _) (Real.sqrt_nonneg _)
    have harc0 : 0 ≤ Real.arctan t := arctan_nonneg_of_nonneg t ht0
    have harcpi := Real.arctan_lt_pi_div_two t
    have hpi := Real.pi_pos
    rw [← Real.arccos_cos (by linarith : 0 ≤ 2 * Real.arctan t)
      (by linarith : 2 * Real.arctan t ≤ Real.pi)]
    congr 1
    rw [Real.cos_two_mul, Real.cos_arctan]
    have h1t : Real.sqrt (1 + t ^ 2) ^ 2 = 1 + t ^ 2 := Real.sq_sqrt (by positivity)
    have ht2 : t ^ 2 = A / (1 - A) := by
      rw [ht, div_pow, Real.sq_sqrt h0, Real.sq_sqrt (by linarith : (0:ℝ) ≤ 1 - A)]
    have hne : (1 : ℝ) - A ≠ 0 := by linarith
    rw [div_pow, one_pow, h1t, ht2]
    field_simp
    ring

theorem hav_formula (lat1 lon1 lat2 lon2 : ℚ) :
    haversine_distance lat1 lon1 lat2 lon2 =
      6371000 * (2 * atan2
        (Real.sqrt (Real.sin (radians (lat2 - lat1) / 2) ^ 2 +
          Real.cos (radians lat1) * Real.cos (radians lat2) *
          Real.sin (radians (lon2 - lon1) / 2) ^ 2))
        (Real.sqrt (1 - (Real.sin (radians (lat2 - lat1) / 2) ^ 2 +
          Real.cos (radians lat1) * Real.cos (radians lat2) *
          Real.sin (radians (lon2 - lon1) / 2) ^ 2)))) := rfl

/-- The coded haversine equals the great-circle form R * arccos(central
angle cosine), for every rational input. -/
theorem haversine_eq_arccos (lat1 lon1 lat2 lon2 : ℚ) :
    haversine_distance lat1 lon1 lat2 lon2 =
      6371000 * Real.arccos
        (Real.sin (radians lat1) * Real.sin (radians lat2) +
         Real.cos (radians lat1) * Real.cos (radians lat2) *
         Real.cos (radians lon2 - radians lon1)) := by
  have hs1 := Real.sin_sq_add_cos_sq (radians lat1)
  have hs2 := Real.sin_sq_add_cos_sq (radians lat2)
  have ht1 := Real.cos_le_one (radians lon2 - radians lon1)
  have ht2 := Real.neg_one_le_cos (radians lon2 - radians lon1)
  set c := Real.sin (radians lat1) * Real.sin (radians lat2) +
    Real.cos (radians lat1) * Real.cos (radians lat2) *
    Real.cos (radians lon2 - radians lon1) with hcdef
  have hcle : c ≤ 1 := by
    rw [hcdef]
    nlinarith [sq_nonneg (Real.sin (radians lat1) - Real.sin (radians lat2)),
      sq_nonneg (Real.cos (radians lat1) -
        Real.cos (radians lat2) * Real.cos (radians lon2 - radians lon1)),
      mul_nonneg (mul_nonneg (by linarith : (0:ℝ) ≤ 1 - Real.cos (radians lon2 - radians lon1))
        (by linarith : (0:ℝ) ≤ 1 + Real.cos (radians lon2 - radians lon1)))
        (sq_nonneg (Real.cos (radians lat2)))]
  have hcge : -1 ≤ c := by
    rw [hcdef]
    nlinarith [sq_nonneg (Real.sin (radians lat1) + Real.sin (radians lat2)),
      sq_nonneg (Real.cos (radians lat1) +
        Real.cos (radians lat2) * Real.cos (radians lon2 - radians lon1)),
      mul_nonneg (mul_nonneg (by linarith : (0:ℝ) ≤ 1 - Real.cos (radians lon2 - radians lon1))
        (by linarith : (0:ℝ) ≤ 1 + Real.cos (radians lon2 - radians lon1)))
        (sq_nonneg (Real.cos (radians lat2)))]
  have hA : Real.sin (radians (lat2 - lat1) / 2) ^ 2 +
      Real.cos (radians lat1) * Real.cos (radians lat2) *
      Real.sin (radians (lon2 - lon1) / 2) ^ 2 = (1 - c) / 2 := by
    rw [hcdef, radians_sub lat2 lat1, radians_sub lon2 lon1, sin_half_sq, sin_half_sq,
      Real.cos_sub, Real.cos_sub]
    ring
  rw [hav_formula, hA, two_atan2_sqrt ((1 - c) / 2) (by linarith) (by linarith)]
  have he : (1 : ℝ) - 2 * ((1 - c) / 2) = c := by ring
  rw [he]

/-- The haversine distance satisfies the triangle inequality. -/
theorem haversine_triangle (lat1 lon1 lat2 lon2 lat3 lon3 : ℚ) :
    haversine_distance lat1 lon1 lat3 lon3 ≤
      haversine_distance lat1 lon1 lat2 lon2 +
      haversine_distance lat2 lon2 lat3 lon3 := by
  rw [haversine_eq_arccos, haversine_eq_arccos, haversine_eq_arccos]
  have hunit : ∀ la lo : ℚ,
      (Real.cos (radians la) * Real.cos (radians lo)) ^ 2 +
      (Real.cos (radians la) * Real.sin (radians lo)) ^ 2 +
      (Real.sin (radians la)) ^ 2 = 1 := by
    intro la lo
    have h1 := Real.sin_sq_add_cos_sq (radians la)
    have h2 := Real.sin_sq_add_cos_sq (radians lo)
    linear_combination (Real.cos (radians la)) ^ 2 * h2 + h1
  have hdot : ∀ la1 lo1 la2 lo2 : ℚ,
      Real.sin (radians la1) * Real.sin (radians la2) +
      Real.cos (radians la1) * Real.cos (radians la2) *
      Real.cos (radians lo2 - radians lo1) =
        (Real.cos (radians la1) * Real.cos (radians lo1)) *
          (Real.cos (radians la2) * Real.cos (radians lo2)) +
        (Real.cos (radians la1) * Real.sin (radians lo1)) *
          (Real.cos (radians la2) * Real.sin (radians lo2)) +
        (Real.sin (radians la1)) * (Real.sin (radians la2)) := by
    intro la1 lo1 la2 lo2
    rw [Real.cos_sub]
    ring
  have hc13sq : (Real.sin (radians lat1) * Real.sin (radians lat3) +
      Real.cos (radians lat1) * Real.cos (radians lat3) *
      Real.cos (radians lon3 - radians lon1)) ^ 2 ≤ 1 := by
    rw [hdot lat1 lon1 lat3 lon3]
    calc _ ≤ ((Real.cos (radians lat1) * Real.cos (radians lon1)) ^ 2 +
          (Real.cos (radians lat1) * Real.sin (radians lon1)) ^ 2 +
          (Real.sin (radians lat1)) ^ 2) *
          ((Real.cos (radians lat3) * Real.cos (radians lon3)) ^ 2 +
          (Real.cos (radians lat3) * Real.sin (radians lon3)) ^ 2 +
          (Real.sin (radians lat3)) ^ 2) := cs3 _ _ _ _ _ _
      _ = 1 := by rw [hunit lat1 lon1, hunit lat3 lon3]; norm_num
  have hc12sq : (Real.sin (radians lat1) * Real.sin (radians lat2) +
      Real.cos (radians lat1) * Real.cos (radians lat2) *
      Real.cos (radians lon2 - radians lon1)) ^ 2 ≤ 1 := by
    rw [hdot lat1 lon1 lat2 lon2]
    calc _ ≤ ((Real.cos (radians lat1) * Real.cos (radians lon1)) ^ 2 +
          (Real.cos (radians lat1) * Real.sin (radians lon1)) ^ 2 +
          (Real.sin (radians lat1)) ^ 2) *
          ((Real.cos (radians lat2) * Real.cos (radians lon2)) ^ 2 +
          (Real.cos (radians lat2) * Real.sin (radians lon2)) ^ 2 +
          (Real.sin (radians lat2)) ^ 2) := cs3 _ _ _ _ _ _
      _ = 1 := by rw [hunit lat1 lon1, hunit lat2 lon2]; norm_num
  have hc23sq : (Real.sin (radians lat2) * Real.sin (radians lat3) +
      Real.cos (radians lat2) * Real.cos (radians lat3) *
      Real.cos (radians lon3 - radians lon2)) ^ 2 ≤ 1 := by
    rw [hdot lat2 lon2 lat3 lon3]
    calc _ ≤ ((Real.cos (radians lat2) * Real.cos (radians lon2)) ^ 2 +
          (Real.cos (radians lat2) * Real.sin (radians lon2)) ^ 2 +
          (Real.sin (radians lat2)) ^ 2) *
          ((Real.cos (radians lat3) * Real.cos (radians lon3)) ^ 2 +
          (Real.cos (radians lat3) * Real.sin (radians lon3)) ^ 2 +
          (Real.sin (radians lat3)) ^ 2) := cs3 _ _ _ _ _ _
      _ = 1 := by rw [hunit lat2 lon2, hunit lat3 lon3]; norm_num
  have hkey := dot_bound
    (Real.cos (radians lat1) * Real.cos (radians lon1))
    (Real.cos (radians lat1) * Real.sin (radians lon1))
    (Real.sin (radians lat1))
    (Real.cos (radians lat2) * Real.cos (radians lon2))
    (Real.cos (radians lat2) * Real.sin (radians lon2))
    (Real.sin (radians lat2))
    (Real.cos (radians lat3) * Real.cos (radians lon3))
    (Real.cos (radians lat3) * Real.sin (radians lon3))
    (Real.sin (radians lat3))
    (Real.sin (radians lat1) * Real.sin (radians lat2) +
      Real.cos (radians lat1) * Real.cos (radians lat2) *
      Real.cos (radians lon2 - radians lon1))
    (Real.sin (radians lat2) * Real.sin (radians lat3) +
      Real.cos (radians lat2) * Real.cos (radians lat3) *
      Real.cos (radians lon3 - radians lon2))
    (Real.sin (radians lat1) * Real.sin (radians lat3) +
      Real.cos (radians lat1) * Real.cos (radians lat3) *
      Real.cos (radians lon3 - radians lon1))
    (hunit lat1 lon1) (hunit lat2 lon2) (hunit lat3 lon3)
    (hdot lat1 lon1 lat2 lon2) (hdot lat2 lon2 lat3 lon3) (hdot lat1 lon1 lat3 lon3)
  have harc := arccos_add_of_cos_bound _ _ _
    (by nlinarith [hc12sq]) (by nlinarith [hc12sq])
    (by nlinarith [hc23sq]) (by nlinarith [hc23sq]) hkey
  have hR : (0 : ℝ) ≤ 6371000 := by norm_num
  nlinarith [harc]

theorem haversine_self (la lo : ℚ) : haversine_distance la lo la lo = 0 := by
  have hz : atan2 0 1 = 0 := by
    unfold atan2
    rw [if_pos (by norm_num : (0 : ℝ) < 1)]
    norm_num [Real.arctan_zero]
  unfold haversine_distance radians
  simp [sub_self, Real.sin_zero, Real.sqrt_zero, Real.sqrt_one, hz]

theorem totalDist_cons_le (w : Wpt) (ys : List Wpt) :
    totalDist ys ≤ totalDist (w :: ys) := by
  cases ys with
  | nil => exact le_refl 0
  | cons y t =>
    have h : totalDist (w :: y :: t) =
        haversine_distance w.lat w.lon y.lat y.lon + totalDist (y :: t) := rfl
    rw [h]
    linarith [haversine_nonneg w.lat w.lon y.lat y.lon]

theorem totalDist_insert_le (xs ys : List Wpt) (w : Wpt) :
    totalDist (xs ++ ys) ≤ totalDist (xs ++ w :: ys) := by
  induction xs with
  | nil => simpa using totalDist_cons_le w ys
  | cons a rest ih =>
    cases rest with
    | nil =>
      cases ys with
      | nil =>
        have h1 : totalDist ([a] ++ ([] : List Wpt)) = 0 := rfl
        have h2 : totalDist ([a] ++ w :: []) =
            haversine_distance a.lat a.lon w.lat w.lon + 0 := rfl
        rw [h1, h2]
        linarith [haversine_nonneg a.lat a.lon w.lat w.lon]
      | cons b t =>
        have h1 : totalDist ([a] ++ b :: t) =
            haversine_distance a.lat a.lon b.lat b.lon + totalDist (b :: t) := rfl
        have h2 : totalDist ([a] ++ w :: b :: t) =
            haversine_distance a.lat a.lon w.lat w.lon +
              (haversine_distance w.lat w.lon b.lat b.lon + totalDist (b :: t)) := rfl
        rw [h1, h2]
        have htri := haversine_triangle a.lat a.lon w.lat w.lon b.lat b.lon
        linarith
    | cons a2 rest2 =>
      have h1 : totalDist ((a :: a2 :: rest2) ++ ys) =
          haversine_distance a.lat a.lon a2.lat a2.lon +
            totalDist ((a2 :: rest2) ++ ys) := rfl
      have h2 : totalDist ((a :: a2 :: rest2) ++ w :: ys) =
          haversine_distance a.lat a.lon a2.lat a2.lon +
            totalDist ((a2 :: rest2) ++ w :: ys) := rfl
      rw [h1, h2]
      linarith [ih]

theorem totalDist_eq_zipWith (ws : List Wpt) :
    totalDist ws = (List.zipWith
      (fun a b => haversine_distance a.lat a.lon b.lat b.lon) ws ws.tail).sum := by
  induction ws with
  | nil => rfl
  | cons a tail ih =>
    cases tail with
    | nil => rfl
    | cons b t =>
      have h : totalDist (a :: b :: t) =
          haversine_distance a.lat a.lon b.lat b.lon + totalDist (b :: t) := rfl
      rw [h, ih]
      rfl

theorem round2_zero : round2 0 = 0 := by
  unfold round2 rne
  norm_num

/-- Claim C6 (counterexample): two coincident waypoints give a route with
2 waypoints whose distance is 0, so distance 0 does not characterize the
lists with fewer than 2 waypoints. -/
theorem route_stats_zero_counterexample :
    (calculate_route_stats [⟨0, 0, []⟩, ⟨0, 0, []⟩]).waypoint_count = 2 ∧
    (calculate_route_stats [⟨0, 0, []⟩, ⟨0, 0, []⟩]).distance_km = 0 := by
  constructor
  · rfl
  · have h1 : totalDist [⟨0, 0, []⟩, ⟨0, 0, []⟩] = 0 := by
      have : totalDist [(⟨0, 0, []⟩ : Wpt), ⟨0, 0, []⟩] =
          haversine_distance 0 0 0 0 + 0 := rfl
      rw [this, haversine_self]
      ring
    have h2 : round2 0 = 0 := by
      unfold round2 rne
      norm_num
    have h3 : (calculate_route_stats [⟨0, 0, []⟩, ⟨0, 0, []⟩]).distance_km =
        round2 (totalDist [⟨0, 0, []⟩, ⟨0, 0, []⟩] / 1000) := by
      unfold calculate_route_stats
      rw [if_neg (by decide)]
    rw [h3, h1]
    norm_num [h2]

/-- Claim C6 (amended): the distance equals the sum of haversine distances
between consecutive waypoints, converted to kilometres and rounded to 2
decimal places; it is non-negative and is 0 whenever the list has fewer
than 2 waypoints (it can also be 0 for longer lists, e.g. coincident
points); the waypoint count is the length; bounds is present exactly when
the list has at least 2 waypoints and is then the min/max lat/lon
envelope; adding a waypoint at any position never decreases the distance. -/
theorem route_stats_spec (ws : List Wpt) (w : Wpt) :
    0 ≤ (calculate_route_stats ws).distance_km ∧
    (calculate_route_stats ws).waypoint_count = ws.length ∧
    (ws.length < 2 →
      (calculate_route_stats ws).distance_km = 0 ∧
      (calculate_route_stats ws).bounds = none) ∧
    (2 ≤ ws.length →
      ∀ b, (calculate_route_stats ws).bounds = some b →
        (b.north ∈ ws.map (fun x => x.lat) ∧ ∀ q ∈ ws.map (fun x => x.lat), q ≤ b.north) ∧
        (b.south ∈ ws.map (fun x => x.lat) ∧ ∀ q ∈ ws.map (fun x => x.lat), b.south ≤ q) ∧
        (b.east ∈ ws.map (fun x => x.lon) ∧ ∀ q ∈ ws.map (fun x => x.lon), q ≤ b.east) ∧
        (b.west ∈ ws.map (fun x => x.lon) ∧ ∀ q ∈ ws.map (fun x => x.lon), b.west ≤ q)) ∧
    ((calculate_route_stats ws).bounds.isSome = true ↔ 2 ≤ ws.length) ∧
    (calculate_route_stats ws).distance_km =
      round2 ((List.zipWith
        (fun a b => haversine_distance a.lat a.lon b.lat b.lon) ws ws.tail).sum / 1000) ∧
    (∀ xs ys : List Wpt, ws = xs ++ ys →
      (calculate_route_stats ws).distance_km ≤
        (calculate_route_stats (xs ++ w :: ys)).distance_km) ∧
    (calculate_route_stats ws).distance_km ≤
      (calculate_route_stats (ws ++ [w])).distance_km := by
  have hnn : ∀ l : List Wpt, 0 ≤ (calculate_route_stats l).distance_km := by
    intro l
    unfold calculate_route_stats
    split_ifs with h
    · exact le_refl 0
    · exact round2_nonneg _ (div_nonneg (totalDist_nonneg l) (by norm_num))
  have hdk : ∀ l : List Wpt, 2 ≤ l.length →
      (calculate_route_stats l).distance_km = round2 (totalDist l / 1000) := by
    intro l hl
    unfold calculate_route_stats
    rw [if_neg (by omega)]
  refine ⟨hnn ws, ?_, ?_, ?_, ?_, ?_, ?_, ?_⟩
  · unfold calculate_route_stats
    split_ifs <;> rfl
  · intro h
    unfold calculate_route_stats
    rw [if_pos h]
    exact ⟨rfl, rfl⟩
  · intro h b hb
    have hne : ws ≠ [] := by
      intro hnil
      rw [hnil] at h
      simp at h
    have hmapne : ∀ f : Wpt → ℚ, ws.map f ≠ [] := by
      intro f hnil
      exact hne (List.map_eq_nil_iff.mp hnil)
    have hb2 : b = { north := listMax (ws.map (fun x => x.lat)),
                     south := listMin (ws.map (fun x => x.lat)),
                     east := listMax (ws.map (fun x => x.lon)),
                     west := listMin (ws.map (fun x => x.lon)) } := by
      unfold calculate_route_stats at hb
      rw [if_neg (by omega)] at hb
      exact (Option.some.inj hb).symm
    subst hb2
    refine ⟨⟨listMax_mem _ (hmapne _), fun q hq => le_listMax _ q hq⟩,
            ⟨listMin_mem _ (hmapne _), fun q hq => listMin_le _ q hq⟩,
            ⟨listMax_mem _ (hmapne _), fun q hq => le_listMax _ q hq⟩,
            ⟨listMin_mem _ (hmapne _), fun q hq => listMin_le _ q hq⟩⟩
  · unfold calculate_route_stats
    split_ifs with h
    · simp
      omega
    · simp
      omega
  · by_cases h : ws.length < 2
    · have hz : (List.zipWith
          (fun a b => haversine_distance a.lat a.lon b.lat b.lon) ws ws.tail).sum = 0 := by
        rcases ws with _ | ⟨a, _ | ⟨b, t⟩⟩
        · rfl
        · rfl
        · simp only [List.length_cons] at h
          omega
      have h1 : (calculate_route_stats ws).distance_km = 0 := by
        unfold calculate_route_stats
        rw [if_pos h]
      rw [h1, hz]
      rw [zero_div, round2_zero]
    · rw [hdk ws (by omega), totalDist_eq_zipWith]
  · intro xs ys hsplit
    subst hsplit
    by_cases h : (xs ++ ys).length < 2
    · have h1 : (calculate_route_stats (xs ++ ys)).distance_km = 0 := by
        unfold calculate_route_stats
        rw [if_pos h]
      rw [h1]
      exact hnn (xs ++ w :: ys)
    · rw [hdk (xs ++ ys) (by omega), hdk (xs ++ w :: ys) (by simp at h ⊢; omega)]
      apply round2_mono
      have h3 := totalDist_insert_le xs ys w
      linarith
  · by_cases h : ws.length < 2
    · have h1 : (calculate_route_stats ws).distance_km = 0 := by
        unfold calculate_route_stats
        rw [if_pos h]
      rw [h1]
      exact hnn (ws ++ [w])
    · rw [hdk ws (by omega), hdk (ws ++ [w]) (by simp at h ⊢; omega)]
      apply round2_mono
      have h3 := totalDist_append_le ws w
      linarith

/-- Claim C6 witness: a singleton list has distance 0, no bounds, and
satisfies the rounded-sum formula; a two point list has present bounds
with north 1 among the latitudes; inserting a waypoint in the middle of a
two point list and appending to the singleton never decrease the distance. -/
theorem route_stats_spec_witness :
    ((calculate_route_stats [⟨0, 0, []⟩]).distance_km = 0 ∧
     (calculate_route_stats [⟨0, 0, []⟩]).bounds = none) ∧
    ((1 : ℚ) ∈ ([⟨0, 0, []⟩, ⟨1, 1, []⟩] : List Wpt).map (fun x => x.lat)) ∧
    (calculate_route_stats ([⟨0, 0, []⟩] : List Wpt)).distance_km =
      round2 ((List.zipWith
        (fun a b => haversine_distance a.lat a.lon b.lat b.lon)
        ([⟨0, 0, []⟩] : List Wpt) ([⟨0, 0, []⟩] : List Wpt).tail).sum / 1000) ∧
    (calculate_route_stats ([⟨0, 0, []⟩, ⟨1, 1, []⟩] : List Wpt)).distance_km ≤
      (calculate_route_stats (([⟨0, 0, []⟩] : List Wpt) ++ ⟨2, 2, []⟩ :: [⟨1, 1, []⟩])).distance_km ∧
    (calculate_route_stats ([⟨0, 0, []⟩] : List Wpt)).distance_km ≤
      (calculate_route_stats (([⟨0, 0, []⟩] : List Wpt) ++ [⟨1, 1, []⟩])).distance_km := by
  refine ⟨(route_stats_spec [⟨0, 0, []⟩] ⟨1, 1, []⟩).2.2.1 (by decide), ?_,
    (route_stats_spec [⟨0, 0, []⟩] ⟨1, 1, []⟩).2.2.2.2.2.1,
    (route_stats_spec [⟨0, 0, []⟩, ⟨1, 1, []⟩] ⟨2, 2, []⟩).2.2.2.2.2.2.1
      [⟨0, 0, []⟩] [⟨1, 1, []⟩] rfl,
    (route_stats_spec [⟨0, 0, []⟩] ⟨1, 1, []⟩).2.2.2.2.2.2.2⟩
  have h := ((route_stats_spec [⟨0, 0, []⟩, ⟨1, 1, []⟩] ⟨0, 0, []⟩).2.2.2.1
    (by decide) ⟨1, 0, 1, 0⟩ rfl).1.1
  exact h

end GPXViewer
